import Mathlib

/-!
A shallow embedding of the streaming XML parser and path-query engine of
`src/xml.c`.

Modelling conventions:
* C strings (`char *`) become `List Char`.  A C string cannot contain the
  NUL byte, so list end models the NUL terminator; reading the terminator
  is modelled by `cstr_get`, which yields the NUL character past the end.
* The pointer-linked element tree becomes an arena (`List XmlElement`)
  addressed by stable indices; the C pointer fields `parent`,
  `first_child`, `last_child` and `next` become `Option Nat` indices with
  exactly the link discipline of `xml_element_add`.
* Attribute key/value spans, which in C alias the element's own key
  buffer, are modelled as copied lists; this preserves all observable
  contents.  Likewise `xml_parse_tag_name`'s in-place NUL writes are
  modelled by truncating/splitting the key list.
* `malloc`/`calloc`/`realloc` failures are not modelled (allocation always
  succeeds); every other error path of the C code is kept.  Functions that
  can fail return an error constructor carrying the state, mirroring the
  C `NULL`/`-1` returns.
* Loops whose termination is not structural take an explicit fuel
  argument; the exported wrappers supply a fuel that is proved sufficient,
  so the `out`-of-fuel constructor is unreachable from them.
-/

set_option linter.unusedVariables false

/-! ## C character and string primitives -/

/-- The NUL character terminating every C string. -/
def nulChar : Char := Char.ofNat 0

/-- Read index `i` of a NUL-terminated string: past the end one reads the
terminator. -/
def cstr_get (s : List Char) (i : Nat) : Char := s.getD i nulChar

/-- The `WHITESPACE` macro of xml.c: `" \t\r\n"`. -/
def xmlWhitespace : List Char := [' ', '\t', '\r', '\n']

/-- C `strspn`: length of the initial run of characters drawn from `set`. -/
def strspn (s : List Char) (set : List Char) : Nat :=
  (s.takeWhile (fun c => set.contains c)).length

/-- C `strcspn`: length of the initial run of characters not in `set`. -/
def strcspn (s : List Char) (set : List Char) : Nat :=
  (s.takeWhile (fun c => !(set.contains c))).length

/-- C `strchr` (for a non-NUL needle): index of the first occurrence. -/
def strchrIdx (s : List Char) (c : Char) : Option Nat :=
  match s with
  | [] => none
  | x :: xs => if x = c then some 0 else (strchrIdx xs c).map (· + 1)

/-- ASCII `tolower` as used by `strcasecmp`/`strncasecmp` in the C locale. -/
def xml_tolower (c : Char) : Char :=
  if 'A' ≤ c ∧ c ≤ 'Z' then Char.ofNat (c.toNat + 32) else c

/-- C `strcasecmp(a,b) == 0`: full case-insensitive equality. -/
def strcaseeq : List Char → List Char → Bool
  | [], [] => true
  | [], _ :: _ => false
  | _ :: _, [] => false
  | a :: as, b :: bs => (xml_tolower a = xml_tolower b : Bool) && strcaseeq as bs

/-- C `strncasecmp(a,b,n) == 0`: case-insensitive equality of the first `n`
characters, stopping at a string end (NUL) like the C function. -/
def strncaseeq : List Char → List Char → Nat → Bool
  | _, _, 0 => true
  | [], [], _ + 1 => true
  | [], _ :: _, _ + 1 => false
  | _ :: _, [], _ + 1 => false
  | a :: as, b :: bs, n + 1 =>
    (xml_tolower a = xml_tolower b : Bool) && strncaseeq as bs n

/-- C `strncmp(a,b,n) == 0`: case-sensitive equality of the first `n`
characters, stopping at a string end (NUL) like the C function. -/
def strneq : List Char → List Char → Nat → Bool
  | _, _, 0 => true
  | [], [], _ + 1 => true
  | [], _ :: _, _ + 1 => false
  | _ :: _, [], _ + 1 => false
  | a :: as, b :: bs, n + 1 => (a = b : Bool) && strneq as bs n

/-! ## Tag pattern table (xml.c lines 8-39) -/

def TAG_ELEMENT_OPEN : Nat := 1
def TAG_ELEMENT_CLOSE : Nat := 2
def TAG_PI : Nat := 3
def TAG_TYPE : Nat := 4
def TAG_COMMENT : Nat := 5
def TAG_CDATA : Nat := 6

/-- `struct xml_tag_pattern` (the `open` field is a Lean keyword, hence the
guillemets). -/
structure XmlTagPattern where
  type : Nat
  «open» : List Char
  open_len : Nat
  close : List Char
  deriving DecidableEq, Repr

/-- The static pattern table `xml_tag_patterns` (the all-zero sentinel entry
is represented by the list end). -/
def xml_tag_patterns : List XmlTagPattern :=
  [ ⟨TAG_ELEMENT_OPEN, ['<'], 1, ['>']⟩,
    ⟨TAG_ELEMENT_CLOSE, ['<', '/'], 2, ['>']⟩,
    ⟨TAG_PI, ['<', '?'], 2, ['?', '>']⟩,
    ⟨TAG_TYPE, ['<', '!'], 2, ['>']⟩,
    ⟨TAG_COMMENT, ['<', '!', '-', '-'], 4, ['-', '-', '>']⟩,
    ⟨TAG_CDATA, ['<', '!', '[', 'C', 'D', 'A', 'T', 'A', '['], 9, [']', ']', '>']⟩ ]

/-! ## Tree model -/

/-- `struct xml_attribute`; `key`/`value` spans are modelled as copies, the
`next` chain as membership in the element's `attributes` list (insertion
order). `value` is `none` when the C pointer is NULL. -/
structure XmlAttribute where
  key : List Char
  value : Option (List Char)
  deriving DecidableEq, Repr

/-- `struct xml_element`; pointer fields become arena indices. -/
structure XmlElement where
  key : Option (List Char) := none
  value : Option (List Char) := none
  parent : Option Nat := none
  first_child : Option Nat := none
  last_child : Option Nat := none
  next : Option Nat := none
  attributes : List XmlAttribute := []
  deriving DecidableEq, Repr

instance : Inhabited XmlElement := ⟨{}⟩

/-- Arena lookup (indices produced by `xml_element_create` are always in
range). -/
def arenaGet (ar : List XmlElement) (i : Nat) : XmlElement := ar.getD i {}

/-- Arena update; out-of-range indices (never produced) leave the arena
unchanged. -/
def arenaSet (ar : List XmlElement) (i : Nat) (e : XmlElement) : List XmlElement :=
  ar.set i e

/-! ## Parser state -/

/-- The three parsing functions the C code stores in `st->parser`. -/
inductive XmlParserMode where
  | content
  | tagOpening
  | tagBody
  deriving DecidableEq, Repr

/-- `struct xml_state`; the tree being built lives in `arena`. -/
structure XmlState where
  root : Option Nat := none
  current : Option Nat := none
  tag : Option XmlTagPattern := none
  length : Nat := 0
  cursor : Nat := 0
  empty : Bool := false
  parser : Option XmlParserMode := none
  arena : List XmlElement := []
  deriving DecidableEq, Repr

/-- A freshly zeroed `struct xml_state` (`memset(&st, 0, sizeof(st))`). -/
def xmlStateInit : XmlState := {}

/-- Result of a parsing step: `err` carries the state at the C
`return NULL` / `-1` point, `out` marks fuel exhaustion (proved
unreachable from the exported wrappers). -/
inductive PRes (α : Type) where
  | ok : α → PRes α
  | err : XmlState → PRes α
  | out : PRes α
  deriving DecidableEq, Repr

/-! ## String building (xml.c lines 45-121) -/

/-- `xml_quotedspn` body: the C loop `while (*++s)` pre-increments, so it
examines `s[1], s[2], …` and never looks at `s[0]`.  `n` is the distance
`s - first` of the character currently examined. -/
def xml_quotedspn_loop : List Char → Char → Nat → Nat
  | [], _, _ => 0
  | c :: rest, q, n =>
    if c = '\\' then
      -- `++s; continue;`: skip the next character entirely
      match rest with
      | [] => 0
      | _ :: rest' => xml_quotedspn_loop rest' q (n + 2)
    else if c = q then n
    else xml_quotedspn_loop rest q (n + 1)

/-- `xml_quotedspn(s, q)` (xml.c lines 51-66): length of a quoted span
respecting backslash escapes.  Because of the pre-increment the first
character after the quote is skipped without being examined. -/
def xml_quotedspn (s : List Char) (q : Char) : Nat :=
  match s with
  | [] => 0
  | _ :: rest => xml_quotedspn_loop rest q 1

/-- `xml_string_append` (xml.c lines 95-121): append `src` to the growable
string `*dest` of length `*dest_len`.  Returns the new `*dest` (which the C
callers test for NULL: with `src_len < 1` and `*dest == NULL` the function
returns NULL without doing anything) and the new `*dest_len`. -/
def xml_string_append (dest : Option (List Char)) (dest_len : Nat)
    (src : List Char) : Option (List Char) × Nat :=
  if src.length < 1 then (dest, dest_len)
  else
    match dest with
    | none => (some src, dest_len + src.length)
    | some s => (some (s ++ src), dest_len + src.length)

/-! ## Creating and modifying elements (xml.c lines 127-204) -/

/-- `xml_element_add(p, c)` (xml.c lines 133-144). -/
def xml_element_add (ar : List XmlElement) (p c : Nat) : List XmlElement :=
  let ar := arenaSet ar c { arenaGet ar c with parent := some p }
  let pe := arenaGet ar p
  match pe.first_child with
  | some _ =>
    match pe.last_child with
    | some lc =>
      let ar := arenaSet ar lc { arenaGet ar lc with next := some c }
      arenaSet ar p { arenaGet ar p with last_child := some c }
    | none => ar   -- unreachable: first_child and last_child are set together
  | none =>
    arenaSet ar p { pe with first_child := some c, last_child := some c }

/-- `xml_element_create(parent)` (xml.c lines 151-163): allocate a zeroed
element at the end of the arena and link it under `parent` when given. -/
def xml_element_create (ar : List XmlElement) (parent : Option Nat) :
    List XmlElement × Nat :=
  let i := ar.length
  let ar := ar ++ [({} : XmlElement)]
  match parent with
  | some p => (xml_element_add ar p i, i)
  | none => (ar, i)

/-- `xml_attribute_add`/`xml_attribute_create` (xml.c lines 175-204):
append an attribute to the element's list. -/
def xml_attribute_add (ar : List XmlElement) (e : Nat) (a : XmlAttribute) :
    List XmlElement :=
  arenaSet ar e { arenaGet ar e with attributes := (arenaGet ar e).attributes ++ [a] }

/-! ## Appending key/value (xml.c lines 217-271) -/

/-- `xml_value_append(st, d, l)` (xml.c lines 217-232): append character
data to the current element, lazily creating a fresh child element when no
string is under construction (`st->length == 0`).  `none` models the C
`-1` return. -/
def xml_value_append (st : XmlState) (d : List Char) : Option XmlState :=
  let st :=
    if st.length = 0 then
      let (ar, i) := xml_element_create st.arena st.current
      { st with arena := ar, current := some i }
    else st
  match st.current with
  | none => none   -- unreachable: element creation always succeeds here
  | some cur =>
    let el := arenaGet st.arena cur
    let (v, len) := xml_string_append el.value st.length d
    match v with
    | none => none
    | some v =>
      some { st with arena := arenaSet st.arena cur { el with value := some v },
                     length := len }

/-- `xml_key_append(st, d, l)` (xml.c lines 241-271): append tag data to
the current element's key.  Data for closing tags is discarded; for a
multi-byte opener the opener's bytes after its first byte are put in front
on the first append. -/
def xml_key_append (st : XmlState) (d : List Char) : Option XmlState :=
  match st.current with
  | none => none
  | some cur =>
    match st.tag with
    | none => none   -- unreachable: tag-body mode always has st->tag set
    | some tag =>
      -- ignore data for closing elements
      if tag.type = TAG_ELEMENT_CLOSE then some st
      else
        -- append start of pattern for special tag types
        let st :=
          if st.length = 0 ∧ tag.open_len > 1 then
            let el := arenaGet st.arena cur
            let (k, len) :=
              xml_string_append el.key st.length ((tag.«open».drop 1).take (tag.open_len - 1))
            match k with
            | none => st   -- unreachable: the appended opener suffix is nonempty
            | some k =>
              { st with arena := arenaSet st.arena cur { el with key := some k },
                        length := len }
          else st
        let el := arenaGet st.arena cur
        let (k, len) := xml_string_append el.key st.length d
        match k with
        | none => none
        | some k =>
          some { st with arena := arenaSet st.arena cur { el with key := some k },
                         length := len }

/-! ## Parsing attributes (xml.c lines 283-354) -/

/-- One C attribute datum: key span and optional value span. -/
def xml_parse_attributes_loop (fuel : Nat) (from_ : List Char)
    (acc : List XmlAttribute) : List XmlAttribute :=
  match fuel with
  | 0 => acc   -- fuel exhausted; unreachable with fuel > |from_|
  | fuel + 1 =>
    match from_ with
    | [] => acc   -- while (*from)
    | _ :: _ =>
      -- skip leading white space
      let from_ := from_.drop (strspn from_ xmlWhitespace)
      -- search for first character that is not part of a name
      let p := strcspn from_ ('=' :: xmlWhitespace)
      if p < 1 then acc
      else
        let key := from_.take p
        let from_ := from_.drop p
        -- skip white space before next control character
        let from_ := from_.drop (strspn from_ xmlWhitespace)
        if cstr_get from_ 0 = '=' then
          let from_ := (from_.drop 1).drop (strspn (from_.drop 1) xmlWhitespace)
          match from_ with
          | [] => acc   -- if (!*from) break;
          | c :: rest =>
            let (q, from_, pv) :=
              if c = '\'' then ('\'', rest, xml_quotedspn rest '\'')
              else if c = '"' then ('"', rest, xml_quotedspn rest '"')
              else (nulChar, from_, strcspn from_ xmlWhitespace)
            let value := from_.take pv
            let from_ := from_.drop pv
            -- if (*from == q) ++from;  (for an unquoted value q is NUL, so
            -- this fires exactly at the end of the buffer, where ++from in C
            -- steps past the terminator; here the list is already empty)
            let from_ := if cstr_get from_ 0 = q then from_.drop 1 else from_
            xml_parse_attributes_loop fuel from_ (acc ++ [⟨key, some value⟩])
        else
          xml_parse_attributes_loop fuel from_ (acc ++ [⟨key, none⟩])

/-- `xml_parse_attributes(e, from)` (xml.c lines 283-354), returning the
attribute list built from the raw text after the tag name.  In C the spans
are terminated in place inside the key buffer; the copies here carry the
same characters. -/
def xml_parse_attributes (from_ : List Char) : List XmlAttribute :=
  xml_parse_attributes_loop (from_.length + 1) from_ []

/-! ## Closing tags, empty-element check, tag names (xml.c lines 360-434) -/

/-- `xml_close_element(st)` (xml.c lines 368-370): pop the insertion point
to the parent.  (With `st->current == NULL` the C code would dereference a
null pointer; that state is unreachable because `xml_key_append` /
`xml_value_append` fail first.) -/
def xml_close_element (st : XmlState) : XmlState :=
  { st with current := st.current.bind (fun c => (arenaGet st.arena c).parent) }

/-- `xml_close_tag(st)` (xml.c lines 377-383). -/
def xml_close_tag (st : XmlState) : XmlState :=
  { st with tag := none, length := 0, cursor := 0, empty := false,
            parser := some .content }

/-- `xml_check_empty` core (xml.c lines 390-407): scan the key backwards
over trailing whitespace; a `/` found there is cut off and flags the
element as empty. -/
def xml_check_empty_key (k : List Char) : List Char × Bool :=
  match k.reverse.dropWhile (fun c => xmlWhitespace.contains c) with
  | [] => (k, false)
  | c :: rest => if c = '/' then (rest.reverse, true) else (k, false)

/-- `xml_check_empty(st)` applied to the current element. -/
def xml_check_empty (st : XmlState) : XmlState :=
  match st.current with
  | none => st   -- unreachable from xml_parse_tag_name's call site
  | some cur =>
    let el := arenaGet st.arena cur
    match el.key with
    | none => st   -- unreachable: the key is set before finalizing an open tag
    | some k =>
      let (k, emp) := xml_check_empty_key k
      { st with arena := arenaSet st.arena cur { el with key := some k },
                empty := st.empty || emp }

/-- `xml_parse_tag_name(st)` (xml.c lines 414-434): split the accumulated
raw key into the element name (the key is truncated in place at the first
whitespace) and the attribute text, which is handed to
`xml_parse_attributes`. -/
def xml_parse_tag_name (st : XmlState) : XmlState :=
  let st := xml_check_empty st
  match st.current with
  | none => st   -- unreachable
  | some cur =>
    let el := arenaGet st.arena cur
    match el.key with
    | none => st   -- unreachable
    | some k =>
      let p := strcspn k xmlWhitespace
      if p = k.length then st   -- key ends with the name
      else
        -- terminate name and skip further white space
        let name := k.take p
        let rest := (k.drop (p + 1)).drop (strspn (k.drop (p + 1)) xmlWhitespace)
        let ar := arenaSet st.arena cur { el with key := some name }
        match rest with
        | [] => { st with arena := ar }
        | _ :: _ =>
          let attrs := xml_parse_attributes rest
          { st with arena := arenaSet ar cur { arenaGet ar cur with
              key := some name, attributes := attrs } }

/-! ## The parsing state machine (xml.c lines 442-614) -/

/-- The full-close-delimiter-match branch of `xml_parse_tag_body`
(xml.c lines 491-513): restore the closer's bytes before its last byte,
split an element-open tag into name and attributes, pop the insertion
point unless an element stays open, and reset the tag state. -/
def xml_tag_finalize (st : XmlState) (rest : List Char) :
    PRes (XmlState × List Char) :=
  match st.tag with
  | none => .err st   -- unreachable: tag-body mode always has st->tag set
  | some tag =>
    -- append termination pattern for special tag types
    let st :=
      if st.cursor > 1 then
        match st.current with
        | none => st   -- unreachable: xml_key_append fails first on NULL current
        | some cur =>
          let el := arenaGet st.arena cur
          let (k, len) :=
            xml_string_append el.key st.length (tag.close.take (st.cursor - 1))
          match k with
          | none => st   -- unreachable: the appended closer prefix is nonempty
          | some k =>
            { st with arena := arenaSet st.arena cur { el with key := some k },
                      length := len }
      else st
    let st := if tag.type = TAG_ELEMENT_OPEN then xml_parse_tag_name st else st
    let st := if tag.type ≠ TAG_ELEMENT_OPEN ∨ st.empty then xml_close_element st
              else st
    .ok (xml_close_tag st, rest)

/-- `xml_parse_tag_body(st, d)` (xml.c lines 442-531): scan for the matched
tag's closing delimiter with an incremental cursor.  Each loop iteration
either consumes input or moves the cursor back to zero, so fuel
`2*|d| + 2` always suffices (`xml_parse_tag_body_loop_no_out`). -/
def xml_parse_tag_body_loop : Nat → XmlState → List Char → PRes (XmlState × List Char)
  | 0, _, _ => .out
  | fuel + 1, st, d =>
    match d with
    | [] => .ok (st, [])   -- while (*d)
    | c :: rest =>
      match st.tag with
      | none => .err st   -- unreachable: tag-body mode always has st->tag set
      | some tag =>
        if st.cursor = 0 then
          -- find first character of terminating pattern
          match strchrIdx d (cstr_get tag.close 0) with
          | none =>
            -- append all the rest and move to end of data
            match xml_key_append st d with
            | none => .err st
            | some st => .ok (st, [])
          | some i =>
            -- put data until this match into tag name
            match xml_key_append st (d.take i) with
            | none => .err st
            | some st =>
              let st := { st with cursor := st.cursor + 1 }
              let d' := d.drop (i + 1)
              if cstr_get tag.close st.cursor = nulChar then
                xml_tag_finalize st d'   -- terminating pattern complete
              else
                xml_parse_tag_body_loop fuel st d'
        else
          -- find next character of terminating pattern
          if cstr_get tag.close st.cursor = c then
            let st := { st with cursor := st.cursor + 1 }
            if cstr_get tag.close st.cursor = nulChar then
              xml_tag_finalize st rest
            else
              xml_parse_tag_body_loop fuel st rest
          else
            -- append leading part of pattern since it is data
            match xml_key_append st (tag.close.take st.cursor) with
            | none => .err st
            | some st =>
              let st := { st with cursor := 0 }
              -- d may still match the beginning of the pattern
              if cstr_get tag.close 0 = c then
                match xml_key_append st (d.take 0) with
                | none => .err st
                | some st =>
                  let st := { st with cursor := 1 }
                  if cstr_get tag.close 1 = nulChar then
                    xml_tag_finalize st rest
                  else
                    xml_parse_tag_body_loop fuel st rest
              else
                -- start over with the cursor at the first character
                xml_parse_tag_body_loop fuel st d

/-- The inner pattern search of `xml_parse_tag_opening` (xml.c lines
545-563): the first table entry whose opener has character `c` at position
`cursor`.  (The C code's retry after resetting the cursor resumes from the
table sentinel and therefore never finds another entry.) -/
def xml_find_pattern (cursor : Nat) (c : Char) : Option XmlTagPattern :=
  xml_tag_patterns.find?
    (fun p => decide (cursor < p.open_len) && (cstr_get p.«open» cursor = c : Bool))

/-- `xml_parse_tag_opening(st, d)` (xml.c lines 539-594): consume bytes
while they extend some opening delimiter; when a byte extends none, adopt
the latest matching pattern, close a pending content run, create the tag's
element (except for closing tags) and hand over to tag-body mode without
consuming the breaking byte. -/
def xml_parse_tag_opening : XmlState → List Char → PRes (XmlState × List Char)
  | st, [] => .ok (st, [])
  | st, c :: rest =>
    match xml_find_pattern st.cursor c with
    | some p =>
      xml_parse_tag_opening { st with cursor := st.cursor + 1, tag := some p } rest
    | none =>
      -- the character matches no pattern anymore: take the latest match
      let st := { st with cursor := 0 }
      match st.tag with
      | none => .err st
      | some tag =>
        let st := if st.length > 0 then xml_close_element st else st
        let st := { st with length := 0, cursor := 0, parser := some .tagBody }
        if tag.type ≠ TAG_ELEMENT_CLOSE then
          let (ar, i) := xml_element_create st.arena st.current
          .ok ({ st with arena := ar, current := some i }, c :: rest)
        else
          .ok (st, c :: rest)

/-- `xml_parse_content(st, d)` (xml.c lines 602-614): append everything up
to the next `<` as character data and switch to tag-opening mode on `<`. -/
def xml_parse_content (st : XmlState) (d : List Char) : PRes (XmlState × List Char) :=
  let cnt := strcspn d ['<']
  let end_ := d.drop cnt
  match (if 0 < cnt then xml_value_append st (d.take cnt) else some st) with
  | none => .err st   -- unreachable: the appended run is nonempty
  | some st =>
    let st := if cstr_get end_ 0 = '<' then { st with parser := some .tagOpening }
              else st
    .ok (st, end_)

/-- One `st->parser(st, d)` dispatch of the chunk loop (xml.c line 636). -/
def xml_run_parse_fn (st : XmlState) (d : List Char) : PRes (XmlState × List Char) :=
  match st.parser with
  | none => .err st   -- unreachable: xml_parse_chunk installs a parser first
  | some .content => xml_parse_content st d
  | some .tagOpening => xml_parse_tag_opening st d
  | some .tagBody => xml_parse_tag_body_loop (2 * d.length + 2) st d

/-- The `while (*d)` loop of `xml_parse_chunk` (xml.c lines 635-639).  Every
dispatch consumes input or switches to a later mode, so fuel `3*|d| + 3`
always suffices (`xml_parse_loop_no_out`). -/
def xml_parse_loop : Nat → XmlState → List Char → PRes XmlState
  | _, st, [] => .ok st
  | 0, _, _ :: _ => .out
  | fuel + 1, st, d =>
    match xml_run_parse_fn st d with
    | .ok (st', d') => xml_parse_loop fuel st' d'
    | .err s => .err s
    | .out => .out

/-- The initialization prefix of `xml_parse_chunk` (xml.c lines 627-633):
create the synthetic root on first use and install the content parser when
none is active. -/
def xml_chunk_init (st : XmlState) : XmlState :=
  let st :=
    if st.root = none then
      let (ar, i) := xml_element_create st.arena none
      { st with arena := ar, root := some i, current := some i }
    else st
  if st.parser = none then xml_close_tag st else st

/-- `xml_parse_chunk(st, d)` (xml.c lines 622-642).  The pair carries the C
return code (`0` success, `-1` error) and the state the caller's
`struct xml_state` holds afterwards; a NULL chunk fails before touching
the state. -/
def xml_parse_chunk (st : XmlState) (d : Option (List Char)) : Int × XmlState :=
  match d with
  | none => (-1, st)
  | some d =>
    let st := xml_chunk_init st
    match xml_parse_loop (3 * d.length + 3) st d with
    | .ok st' => (0, st')
    | .err s => (-1, s)
    | .out => (-1, st)   -- unreachable: see xml_parse_loop_no_out

/-- `xml_parse(data)` (xml.c lines 649-659): parse one whole document on a
fresh state and yield the resulting state (whose `root` is the returned
element) on success. -/
def xml_parse (data : Option (List Char)) : Option XmlState :=
  let r := xml_parse_chunk xmlStateInit data
  if r.1 = 0 ∧ r.2.root.isSome then some r.2 else none

/-! ## Path segments (xml.c lines 15-24, 774-899) -/

/-- `struct xml_query_string`: one `?key=value` constraint; spans into the
path string are modelled as copies (`value = none` for a bare key). -/
structure XmlQueryString where
  key : List Char
  value : Option (List Char)
  deriving DecidableEq, Repr

/-- `struct xml_path_segment`. -/
structure XmlPathSegment where
  tag_len : Nat
  query : List XmlQueryString
  deriving DecidableEq, Repr

/-- The `do … while (*sep && sep < stop)` constraint loop of
`xml_first_path_segment` (xml.c lines 839-860).  `sep` is an offset into
`path` pointing at the `?`/separator; `xml_add_query_string` prepends, so
the accumulated list is in reverse order of appearance. -/
def xml_query_loop (path : List Char) (stop : Nat) :
    Nat → Nat → List XmlQueryString → List XmlQueryString
  | 0, _, acc => acc   -- fuel exhausted; unreachable, sep strictly increases
  | fuel + 1, sep, acc =>
    let keyPos := sep + 1
    let key_len := strcspn (path.drop keyPos) ['=', '&', '/']
    let valuePos := keyPos + key_len
    if cstr_get path valuePos = '=' then
      let value_len := strcspn (path.drop (valuePos + 1)) ['&', '/']
      let q : XmlQueryString :=
        ⟨(path.drop keyPos).take key_len, some ((path.drop (valuePos + 1)).take value_len)⟩
      let sep' := valuePos + 1 + value_len
      if sep' < path.length ∧ sep' < stop then xml_query_loop path stop fuel sep' (q :: acc)
      else q :: acc
    else
      let q : XmlQueryString := ⟨(path.drop keyPos).take key_len, none⟩
      if valuePos < path.length ∧ valuePos < stop then
        xml_query_loop path stop fuel valuePos (q :: acc)
      else q :: acc

/-- `xml_first_path_segment(seg, path)` (xml.c lines 819-866): the first
path segment and (`next`) the rest of the path after a `/`. -/
def xml_first_path_segment (path : List Char) :
    XmlPathSegment × Option (List Char) :=
  let (tagLen0, next) :=
    match strchrIdx path '/' with
    | none => (path.length, none)
    | some i => (i, some (path.drop (i + 1)))
  match strchrIdx path '?' with
  | some sep =>
    if sep < tagLen0 then
      (⟨sep, xml_query_loop path tagLen0 (path.length + 1) sep []⟩, next)
    else (⟨tagLen0, []⟩, next)
  | none => (⟨tagLen0, []⟩, next)

/-- The backwards scan `while (--prev > path && *prev != '/');` of
`xml_last_path_segment` (xml.c line 890), on offsets.  (Called with offset
`0` the C code would step in front of the buffer, which is undefined; the
model pins the result to the path start.) -/
def xml_back_scan (path : List Char) : Nat → Nat
  | 0 => 0
  | j + 1 => if cstr_get path j = '/' then j else xml_back_scan path j

/-- `xml_last_path_segment(seg, path, prev)` (xml.c lines 876-899): parse
the path segment ending at offset `prev` (path end when `none`), returning
the segment and the new `prev` (the `/` in front of the segment, or 0). -/
def xml_last_path_segment (path : List Char) (prev : Option Nat) :
    XmlPathSegment × Nat :=
  let prev0 := prev.getD path.length
  let j := xml_back_scan path prev0
  let p := if cstr_get path j = '/' then j + 1 else j
  ((xml_first_path_segment (path.drop p)).1, j)

/-! ## Attribute and element location (xml.c lines 710-1004) -/

/-- `xml_find_attribute(a, key)` (xml.c lines 710-720): case-insensitive
key lookup over the attribute list. -/
def xml_find_attribute (attrs : List XmlAttribute) (key : List Char) :
    Option XmlAttribute :=
  attrs.find? (fun a => strcaseeq a.key key)

/-- The inner scan of `xml_attribute_match` for a single constraint
(xml.c lines 746-759): the first attribute with the constrained key that
also satisfies the value requirement.  (When a constraint has a value but
the attribute has none, the C code passes NULL to `strlen` — undefined
behaviour; the model lets the scan continue.) -/
def xml_attr_constraint_ok (el : XmlElement) (q : XmlQueryString) : Bool :=
  el.attributes.any (fun a =>
    (a.key.length = q.key.length : Bool) && strneq a.key q.key q.key.length &&
      match q.value with
      | none => true
      | some v =>
        match a.value with
        | none => false
        | some av => (av.length = v.length : Bool) && strneq av v v.length)

/-- `xml_attribute_match(e, seg)` (xml.c lines 732-767). -/
def xml_attribute_match (e : Option XmlElement) (seg : XmlPathSegment) : Bool :=
  match e with
  | none => false
  | some el =>
    if seg.query.isEmpty then true
    else seg.query.all (fun q => xml_attr_constraint_ok el q)

/-- The per-child matching condition of `xml_find` (xml.c lines 920-925):
the key exists, has exactly the segment's length, and compares equal to
the path's segment prefix case-insensitively. -/
def xml_find_name_match (key : Option (List Char)) (path : List Char)
    (tagLen : Nat) : Bool :=
  match key with
  | none => false
  | some k => (k.length = tagLen : Bool) && strncaseeq k path tagLen

mutual

/-- The child loop of `xml_find` (xml.c lines 919-937): scan the sibling
chain in document order; on a name-and-attributes match either return it
(last segment) or try the remaining path inside it, continuing with later
siblings when the subtree has no match. -/
def xml_find_loop (ar : List XmlElement) :
    Nat → Option Nat → List Char → XmlPathSegment → Option (List Char) → Option Nat
  | 0, _, _, _, _ => none
  | _ + 1, none, _, _, _ => none
  | fuel + 1, some i, path, seg, next =>
    let el := arenaGet ar i
    if xml_find_name_match el.key path seg.tag_len && xml_attribute_match (some el) seg then
      match next with
      | none => some i
      | some np =>
        match xml_find_fuel ar fuel i np with
        | some c => some c
        | none => xml_find_loop ar fuel el.next path seg next
    else xml_find_loop ar fuel el.next path seg next

/-- `xml_find(e, path)` (xml.c lines 908-941), fuelled. -/
def xml_find_fuel (ar : List XmlElement) : Nat → Nat → List Char → Option Nat
  | 0, _, _ => none
  | fuel + 1, e, path =>
    if path = [] then none   -- if (!path || !*path)
    else
      let (seg, next) := xml_first_path_segment path
      xml_find_loop ar fuel (arenaGet ar e).first_child path seg next

end

/-- `xml_find(e, path)` with fuel sufficient for any tree the parser
builds. -/
def xml_find (ar : List XmlElement) (e : Nat) (path : List Char) : Option Nat :=
  xml_find_fuel ar ((ar.length + 1) * (path.length + 1) + 1) e path

/-- The `FIND` macro of `xml_find_next_from` (xml.c lines 956-964): scan a
sibling chain for the next element whose key compares case-insensitively
equal to the last match's key and whose attributes satisfy the segment. -/
def xml_find_sib_scan (ar : List XmlElement) :
    Nat → Option Nat → List Char → XmlPathSegment → Option Nat
  | 0, _, _, _ => none
  | _ + 1, none, _, _ => none
  | fuel + 1, some i, lastKey, seg =>
    let el := arenaGet ar i
    let hit :=
      match el.key with
      | none => false
      | some k => strcaseeq k lastKey && xml_attribute_match (some el) seg
    if hit then some i else xml_find_sib_scan ar fuel el.next lastKey seg

mutual

/-- `xml_find_next_from(last, path, prev)` (xml.c lines 951-991),
fuelled. -/
def xml_find_next_from_fuel (ar : List XmlElement) :
    Nat → Option Nat → Option (List Char) → Option Nat → Option Nat
  | 0, _, _, _ => none
  | fuel + 1, last?, path, prev =>
    match last? with
    | none => none
    | some li =>
      let (seg, prev') :=
        match path with
        | some p => let (s, j) := xml_last_path_segment p prev; (s, some j)
        | none => (⟨0, []⟩, prev)
      match (arenaGet ar li).key with
      | none => none   -- C dereferences last->key; matches always carry a key
      | some lastKey =>
        match xml_find_sib_scan ar fuel (arenaGet ar li).next lastKey seg with
        | some r => some r
        | none =>
          xml_find_next_anc ar fuel ((arenaGet ar li).parent) path prev' lastKey seg

/-- The `for (; p && p->key;)` ancestor loop of `xml_find_next_from`
(xml.c lines 980-987): ask "find next" of the parent level, then scan that
match's children from the start. -/
def xml_find_next_anc (ar : List XmlElement) :
    Nat → Option Nat → Option (List Char) → Option Nat → List Char →
      XmlPathSegment → Option Nat
  | 0, _, _, _, _, _ => none
  | fuel + 1, p?, path, prev, lastKey, seg =>
    match p? with
    | none => none
    | some pi =>
      if (arenaGet ar pi).key = none then none
      else
        match xml_find_next_from_fuel ar fuel (some pi) path prev with
        | none => none
        | some p2 =>
          match xml_find_sib_scan ar fuel (arenaGet ar p2).first_child lastKey seg with
          | some r => some r
          | none => xml_find_next_anc ar fuel (some p2) path prev lastKey seg

end

/-- `xml_find_next(last, path)` (xml.c lines 1000-1004) with fuel
sufficient for any tree the parser builds. -/
def xml_find_next (ar : List XmlElement) (last : Option Nat)
    (path : Option (List Char)) : Option Nat :=
  xml_find_next_from_fuel ar ((ar.length + 2) * (ar.length + 2)) last path none

/-! ## Content concatenation (xml.c lines 1015-1077) -/

/-- `xml_content_len(e)`'s child loop (xml.c lines 1015-1027), on a sibling
chain head. -/
def xml_content_len_loop (ar : List XmlElement) : Nat → Option Nat → Nat
  | 0, _ => 0
  | _ + 1, none => 0
  | fuel + 1, some i =>
    let el := arenaGet ar i
    (match el.value with
     | some v => v.length
     | none => xml_content_len_loop ar fuel el.first_child) +
      xml_content_len_loop ar fuel el.next

/-- `xml_content_cpy(e, t)`'s child loop (xml.c lines 1035-1044). -/
def xml_content_cpy_loop (ar : List XmlElement) : Nat → Option Nat → List Char
  | 0, _ => []
  | _ + 1, none => []
  | fuel + 1, some i =>
    let el := arenaGet ar i
    (match el.value with
     | some v => v
     | none => xml_content_cpy_loop ar fuel el.first_child) ++
      xml_content_cpy_loop ar fuel el.next

/-- `xml_content(e)` (xml.c lines 1051-1066): concatenation of all leaf
values below `e`, or `none` when there is nothing (or no element). -/
def xml_content (ar : List XmlElement) (e : Option Nat) : Option (List Char) :=
  match e with
  | none => none
  | some ei =>
    let l := xml_content_len_loop ar (ar.length + 1) (arenaGet ar ei).first_child
    if l < 1 then none
    else some (xml_content_cpy_loop ar (ar.length + 1) (arenaGet ar ei).first_child)

/-- `xml_content_find(root, path)` (xml.c lines 1075-1077). -/
def xml_content_find (ar : List XmlElement) (root : Nat) (path : List Char) :
    Option (List Char) :=
  xml_content ar (xml_find ar root path)

/-! ## Fixture documents used by the concrete parts of the theorems -/

/-- The parsed tree of `<a><b>1</b><b>2</b></a>` (fixture). -/
def xmlDocTwoB : XmlState :=
  (xml_parse (some "<a><b>1</b><b>2</b></a>".toList)).getD {}

/-- The parsed tree of `<a><b x="1">p</b><b x="2">q</b></a>` (fixture). -/
def xmlDocAttrQ : XmlState :=
  (xml_parse (some "<a><b x=\"1\">p</b><b x=\"2\">q</b></a>".toList)).getD {}

/-- The parsed tree of `<a><b>u</c></d>e` — close tags whose names match
nothing (fixture). -/
def xmlDocBadClose : XmlState :=
  (xml_parse (some "<a><b>u</c></d>e".toList)).getD {}

/-- The comment tag-pattern table entry (fixture for the raw-key
theorems). -/
def cmtTag : XmlTagPattern := ⟨TAG_COMMENT, ['<', '!', '-', '-'], 4, ['-', '-', '>']⟩

/-- A parser state sitting in tag-body mode on a fresh comment element
(fixture). -/
def st0c2 : XmlState :=
  { current := some 0, tag := some cmtTag, parser := some .tagBody,
    arena := [{}] }

/-- The state `st0c2` reaches after scanning `x-->` (fixture). -/
def st1c2 : XmlState :=
  { parser := some .content,
    arena := [{ key := some ['!', '-', '-', 'x', '-', '-'] }] }

/-! ## Helper lemmas about the C string comparisons -/

theorem strncaseeq_of_len (k p : List Char) (n : Nat) (hk : k.length = n)
    (hn : n ≤ p.length) :
    strncaseeq k p n = true ↔ k.map xml_tolower = (p.take n).map xml_tolower := by
  induction k generalizing p n with
  | nil =>
    subst hk
    simp [strncaseeq]
  | cons a as ih =>
    subst hk
    cases p with
    | nil => simp at hn
    | cons b bs =>
      simp only [List.length_cons] at hn
      simp only [strncaseeq, List.take, List.map, Bool.and_eq_true,
        decide_eq_true_eq, List.cons.injEq]
      exact and_congr_right fun _ =>
        ih bs as.length rfl (Nat.le_of_succ_le_succ hn)

theorem strneq_of_len (a b : List Char) (h : a.length = b.length) :
    strneq a b b.length = true ↔ a = b := by
  induction a generalizing b with
  | nil =>
    cases b with
    | nil => simp [strneq]
    | cons x xs => simp at h
  | cons x xs ih =>
    cases b with
    | nil => simp at h
    | cons y ys =>
      simp only [List.length_cons, Nat.succ.injEq] at h
      simp only [strneq, Bool.and_eq_true, decide_eq_true_eq, List.cons.injEq]
      exact and_congr_right fun _ => ih ys h

/-- Key comparison of `xml_attribute_match` (length check plus `strncmp`)
is plain list equality. -/
theorem strneq_len_iff (a b : List Char) :
    ((a.length = b.length : Bool) && strneq a b b.length) = true ↔ a = b := by
  simp only [Bool.and_eq_true, decide_eq_true_eq]
  constructor
  · rintro ⟨h1, h2⟩; exact (strneq_of_len a b h1).mp h2
  · rintro rfl; exact ⟨rfl, (strneq_of_len a a rfl).mpr rfl⟩

/-! ## C9 — quoted-span scanning -/

/-- C9: the claim says `xml_quotedspn` treats every backslash-escaped
character — an escaped quote in the first position of the value included —
as literal data.  The code's scan loop `while (*++s)` pre-increments, so
the first character after the quote is never examined: for the value text
`\"x"` (an escaped quote, then `x`, then the real closing quote) it sees
the quote at index 1 and returns 1 instead of the span 3 the claim
describes.  This theorem evaluates the code at that failing input. -/
theorem xml_quotedspn_skips_first_char :
    xml_quotedspn ['\\', '"', 'x', '"'] '"' = 1 ∧
    xml_quotedspn ['\\', '"', 'x', '"'] '"' ≠ 3 := by
  exact ⟨rfl, by decide⟩

/-! ## C8 — empty and null chunks -/

/-- C8: `xml_parse_chunk` with a NULL chunk returns `-1` leaving the state
(and so the tree) untouched; with an empty chunk it returns `0` and leaves
every element of the tree unchanged (on a state that has already begun a
document — root and active parser present — the state is returned exactly;
on a fresh state only the initialization that creates the empty root
runs). -/
theorem xml_parse_chunk_empty_and_null_spec (st : XmlState) :
    xml_parse_chunk st none = (-1, st) ∧
    (xml_parse_chunk st (some [])).1 = 0 ∧
    (∀ i, i < st.arena.length →
      (xml_parse_chunk st (some [])).2.arena.getD i {} = st.arena.getD i {}) ∧
    (st.root.isSome → st.parser.isSome → xml_parse_chunk st (some []) = (0, st)) := by
  refine ⟨rfl, ?_, ?_, ?_⟩
  · simp [xml_parse_chunk, xml_parse_loop]
  · intro i hi
    have hgd : ∀ (l' : List XmlElement) (d : XmlElement),
        (st.arena ++ l')[i]?.getD d = st.arena[i]?.getD d := by
      intro l' d
      rw [List.getElem?_append, if_pos hi]
    simp only [xml_parse_chunk, xml_parse_loop, xml_chunk_init]
    by_cases hr : st.root = none <;> by_cases hp2 : st.parser = none <;>
      simp [hr, hp2, xml_close_tag, xml_element_create, List.getD, hgd]
  · intro hr hp
    have hr' : ¬st.root = none := by
      cases h : st.root <;> simp [h] at hr ⊢
    have hp' : ¬st.parser = none := by
      cases h : st.parser <;> simp [h] at hp ⊢
    simp [xml_parse_chunk, xml_parse_loop, xml_chunk_init, hr', hp']

/-- Witness for C8 at a concrete state that has begun a document. -/
theorem xml_parse_chunk_empty_and_null_spec_witness :
    xml_parse_chunk (xml_parse_chunk xmlStateInit (some "<a>".toList)).2 (some []) =
      (0, (xml_parse_chunk xmlStateInit (some "<a>".toList)).2) := by
  exact (xml_parse_chunk_empty_and_null_spec
    (xml_parse_chunk xmlStateInit (some "<a>".toList)).2).2.2.2
    (by decide) (by decide)

/-! ## C10 — closing-tag names are ignored -/

/-- C10: `xml_key_append` discards all data while the active tag is an
element-close tag, and on the concrete document `<a><b>u</c></d>e` the
mismatching close tags `</c>` and `</d>` simply pop the most recently
opened elements: the tree keeps `a` and `b` (with `u` inside `b`), the
text `e` lands under the root, and no element named `c` or `d` exists. -/
theorem xml_close_tag_name_ignored :
    (∀ (st : XmlState) (cur : Nat) (tag : XmlTagPattern) (d : List Char),
       st.current = some cur → st.tag = some tag → tag.type = TAG_ELEMENT_CLOSE →
       xml_key_append st d = some st) ∧
    xmlDocBadClose.arena.length = 5 ∧
    (arenaGet xmlDocBadClose.arena 1).key = some "a".toList ∧
    (arenaGet xmlDocBadClose.arena 2).key = some "b".toList ∧
    (arenaGet xmlDocBadClose.arena 2).parent = some 1 ∧
    (arenaGet xmlDocBadClose.arena 3).value = some "u".toList ∧
    (arenaGet xmlDocBadClose.arena 3).parent = some 2 ∧
    (arenaGet xmlDocBadClose.arena 4).value = some "e".toList ∧
    (arenaGet xmlDocBadClose.arena 4).parent = some 0 ∧
    (∀ i, i < 5 → (arenaGet xmlDocBadClose.arena i).key ≠ some "c".toList ∧
      (arenaGet xmlDocBadClose.arena i).key ≠ some "d".toList) := by
  refine ⟨?_, by decide, by decide, by decide, by decide, by decide, by decide,
    by decide, by decide, by decide⟩
  intro st cur tag d hc ht htype
  simp [xml_key_append, hc, ht, htype]

/-- Witness for C10: the discard branch applied at a concrete state. -/
theorem xml_close_tag_name_ignored_witness :
    xml_key_append
      { current := some 0,
        tag := some ⟨TAG_ELEMENT_CLOSE, ['<', '/'], 2, ['>']⟩,
        arena := [{}] } ['z'] =
      some { current := some 0,
             tag := some ⟨TAG_ELEMENT_CLOSE, ['<', '/'], 2, ['>']⟩,
             arena := [{}] } := by
  exact xml_close_tag_name_ignored.1 _ 0 _ ['z'] rfl rfl rfl

/-! ## C3 — case-insensitive exact name matching in xml_find -/

/-- C3: `xml_find` scans the direct children in document order and a child
matches a segment's tag name exactly when its key and the segment name
(the `tag_len`-prefix of the path) have equal length and compare equal
case-insensitively — a key that is a strict prefix or extension never
matches, because of the length test; a missing key never matches.  In
particular `find(tree, "A/B")` on `<a><b>1</b><b>2</b></a>` reaches the
first `b` element (arena index 2). -/
theorem xml_find_child_match_spec :
    (∀ (p : List Char) (n : Nat), xml_find_name_match none p n = false) ∧
    (∀ (k p : List Char) (n : Nat), n ≤ p.length →
      (xml_find_name_match (some k) p n = true ↔
        (k.length = n ∧ k.map xml_tolower = (p.take n).map xml_tolower))) ∧
    xml_find xmlDocTwoB.arena 0 "A/B".toList = some 2 ∧
    (arenaGet xmlDocTwoB.arena 1).key = some "a".toList ∧
    (arenaGet xmlDocTwoB.arena 2).key = some "b".toList := by
  refine ⟨fun p n => rfl, ?_, by decide, by decide, by decide⟩
  intro k p n hn
  simp only [xml_find_name_match, Bool.and_eq_true, decide_eq_true_eq]
  exact and_congr_right fun hk => strncaseeq_of_len k p n hk hn

/-- Witness for C3 at a concrete key/path pair. -/
theorem xml_find_child_match_spec_witness :
    xml_find_name_match (some ['B']) ['b', '?', 'x'] 1 = true ↔
      ((['B'] : List Char).length = 1 ∧
        (['B'].map xml_tolower : List Char) =
          ((['b', '?', 'x'] : List Char).take 1).map xml_tolower) := by
  exact xml_find_child_match_spec.2.1 ['B'] ['b', '?', 'x'] 1 (by decide)

/-! ## C4 — attribute constraints in path queries -/

/-- C4: in `xml_attribute_match` a bare constraint `k` is satisfied exactly
when some attribute has key `k` (case-sensitively), and a valued constraint
`k=v` exactly when some attribute has key `k` and value `v`
(case-sensitively; stated for elements whose attributes all carry a value,
since the C code applies `strlen` to a NULL value otherwise).  On
`<a><b x="1">p</b><b x="2">q</b></a>`, `find` with `a/b?x=1` returns the
element whose content is `p`, and `find` with `a/b?x=3` finds nothing. -/
theorem xml_attribute_constraint_spec :
    (∀ (el : XmlElement) (q : XmlQueryString), q.value = none →
      (xml_attr_constraint_ok el q = true ↔ ∃ a ∈ el.attributes, a.key = q.key)) ∧
    (∀ (el : XmlElement) (q : XmlQueryString) (v : List Char), q.value = some v →
      (∀ a ∈ el.attributes, a.value.isSome) →
      (xml_attr_constraint_ok el q = true ↔
        ∃ a ∈ el.attributes, a.key = q.key ∧ a.value = some v)) ∧
    xml_content xmlDocAttrQ.arena (xml_find xmlDocAttrQ.arena 0 "a/b?x=1".toList) =
      some ['p'] ∧
    xml_find xmlDocAttrQ.arena 0 "a/b?x=3".toList = none := by
  refine ⟨?_, ?_, by decide, by decide⟩
  · intro el q hq
    simp only [xml_attr_constraint_ok, hq, List.any_eq_true]
    constructor
    · rintro ⟨a, ha, hcond⟩
      have h1 := (Bool.and_eq_true _ _).mp hcond
      exact ⟨a, ha, (strneq_len_iff a.key q.key).mp h1.1⟩
    · rintro ⟨a, ha, hkey⟩
      exact ⟨a, ha, (Bool.and_eq_true _ _).mpr
        ⟨(strneq_len_iff a.key q.key).mpr hkey, rfl⟩⟩
  · intro el q v hq hval
    simp only [xml_attr_constraint_ok, hq, List.any_eq_true]
    constructor
    · rintro ⟨a, ha, hcond⟩
      have h1 := (Bool.and_eq_true _ _).mp hcond
      refine ⟨a, ha, (strneq_len_iff a.key q.key).mp h1.1, ?_⟩
      have h3 := h1.2
      cases hv : a.value with
      | none => rw [hv] at h3; simp at h3
      | some av =>
        rw [hv] at h3
        have h4 := (Bool.and_eq_true _ _).mp h3
        have hlen : av.length = v.length := by simpa using h4.1
        exact congrArg some ((strneq_of_len av v hlen).mp h4.2)
    · rintro ⟨a, ha, hkey, hv⟩
      refine ⟨a, ha, (Bool.and_eq_true _ _).mpr
        ⟨(strneq_len_iff a.key q.key).mpr hkey, ?_⟩⟩
      rw [hv]
      exact (Bool.and_eq_true _ _).mpr ⟨by simp, (strneq_of_len v v rfl).mpr rfl⟩

/-- Witness for C4 at a concrete element and constraints. -/
theorem xml_attribute_constraint_spec_witness :
    (xml_attr_constraint_ok ⟨none, none, none, none, none, none,
        [⟨['x'], some ['1']⟩]⟩ ⟨['x'], none⟩ = true ↔
      ∃ a ∈ [(⟨['x'], some ['1']⟩ : XmlAttribute)], a.key = ['x']) ∧
    (xml_attr_constraint_ok ⟨none, none, none, none, none, none,
        [⟨['x'], some ['1']⟩]⟩ ⟨['x'], some ['1']⟩ = true ↔
      ∃ a ∈ [(⟨['x'], some ['1']⟩ : XmlAttribute)],
        a.key = ['x'] ∧ a.value = some ['1']) := by
  exact ⟨xml_attribute_constraint_spec.1 _ _ rfl,
    xml_attribute_constraint_spec.2.1 _ _ ['1'] rfl (by decide)⟩

/-! ## C5 — find_next resumes at the following siblings -/

/-- C5: on `<a><b>1</b><b>2</b></a>`, `find` with `a/b` yields the first
`b` (index 2, content `1`), `find_next` from it yields the second `b`
(index 4, content `2`), and `find_next` from that yields no match.  In
general, `xml_find_next_from` first re-derives the last path segment and
scans the last match's following siblings (`last->next` chain) for the
next element whose key equals the last match's key case-insensitively and
which satisfies the segment's constraints, returning the first such hit. -/
theorem xml_find_next_sibling_spec :
    xml_find xmlDocTwoB.arena 0 "a/b".toList = some 2 ∧
    xml_content xmlDocTwoB.arena (some 2) = some ['1'] ∧
    xml_find_next xmlDocTwoB.arena (some 2) (some "a/b".toList) = some 4 ∧
    xml_content xmlDocTwoB.arena (some 4) = some ['2'] ∧
    xml_find_next xmlDocTwoB.arena (some 4) (some "a/b".toList) = none ∧
    (∀ (ar : List XmlElement) (f li r : Nat) (path lastKey : List Char)
       (seg : XmlPathSegment) (prev' : Nat),
       (arenaGet ar li).key = some lastKey →
       xml_last_path_segment path none = (seg, prev') →
       xml_find_sib_scan ar f (arenaGet ar li).next lastKey seg = some r →
       xml_find_next_from_fuel ar (f + 1) (some li) (some path) none = some r) := by
  refine ⟨by decide, by decide, by decide, by decide, by decide, ?_⟩
  intro ar f li r path lastKey seg prev' hkey hseg hscan
  simp [xml_find_next_from_fuel, hseg, hkey, hscan]

/-- Witness for C5's sibling-scan clause on the fixture tree. -/
theorem xml_find_next_sibling_spec_witness :
    xml_find_next_from_fuel xmlDocTwoB.arena 9 (some 2) (some "a/b".toList)
      none = some 4 := by
  exact xml_find_next_sibling_spec.2.2.2.2.2 xmlDocTwoB.arena 8 2 4
    "a/b".toList ['b'] ⟨1, []⟩ 1 (by decide) (by decide) (by decide)

/-! ## Scanning lemmas for symbolic documents -/

theorem takeWhile_append_every (p : Char → Bool) (b r : List Char)
    (hb : ∀ c ∈ b, p c = true) :
    (b ++ r).takeWhile p = b ++ r.takeWhile p := by
  induction b with
  | nil => rfl
  | cons x xs ih =>
    have h1 := hb x (by simp)
    have h2 := ih (fun c hc => hb c (by simp [hc]))
    simp [List.takeWhile_cons, h1, h2]

theorem takeWhile_every (p : Char → Bool) (b : List Char)
    (hb : ∀ c ∈ b, p c = true) : b.takeWhile p = b := by
  have := takeWhile_append_every p b [] hb
  simpa using this

/-- `strcspn` over text free of the stop character, up to that character. -/
theorem strcspn_stop (b r : List Char) (g : Char) (hb : ∀ c ∈ b, c ≠ g) :
    strcspn (b ++ g :: r) [g] = b.length := by
  unfold strcspn
  rw [takeWhile_append_every _ b _ (fun c hc => by simp [hb c hc])]
  simp [List.takeWhile_cons]

/-- `strcspn` over text free of the stop character, to the end. -/
theorem strcspn_all (b : List Char) (g : Char) (hb : ∀ c ∈ b, c ≠ g) :
    strcspn b [g] = b.length := by
  unfold strcspn
  rw [takeWhile_every _ b (fun c hc => by simp [hb c hc])]

/-- `strchr` over text free of the needle finds the first following
occurrence. -/
theorem strchrIdx_append (t r : List Char) (g : Char) (ht : ∀ c ∈ t, c ≠ g) :
    strchrIdx (t ++ g :: r) g = some t.length := by
  induction t with
  | nil => simp [strchrIdx]
  | cons x xs ih =>
    have hx : x ≠ g := ht x (by simp)
    have h2 := ih (fun c hc => ht c (by simp [hc]))
    simp [strchrIdx, hx, h2]

theorem drop_append_succ (t r : List Char) (g : Char) :
    (t ++ g :: r).drop (t.length + 1) = r := by
  induction t with
  | nil => simp
  | cons x xs ih => simpa using ih

theorem take_append_len (t r : List Char) : (t ++ r).take t.length = t := by
  induction t with
  | nil => simp
  | cons x xs ih => simpa using ih

/-- A key with no trailing `/` (here: no whitespace and no `/` at all) is
left alone by the empty-element check. -/
theorem xml_check_empty_key_plain (t : List Char)
    (ht : ∀ c ∈ t, c ∉ xmlWhitespace ∧ c ≠ '/') :
    xml_check_empty_key t = (t, false) := by
  unfold xml_check_empty_key
  cases hrev : t.reverse with
  | nil => rfl
  | cons c cs =>
    have hc : c ∈ t := by
      rw [← List.mem_reverse, hrev]; simp
    rw [List.dropWhile_cons_of_neg (by simp [(ht c hc).1])]
    simp [(ht c hc).2]

/-- A key ending in `/` is truncated and flags the element empty. -/
theorem xml_check_empty_key_slash (t : List Char) :
    xml_check_empty_key (t ++ ['/']) = (t, true) := by
  unfold xml_check_empty_key
  rw [List.reverse_append]
  simp [List.dropWhile_cons_of_neg, xmlWhitespace]

/-! ## The opening-pattern search on concrete cursors -/

theorem xml_find_pattern_zero_lt :
    xml_find_pattern 0 '<' = some ⟨TAG_ELEMENT_OPEN, ['<'], 1, ['>']⟩ := by decide

theorem xml_find_pattern_one_slash :
    xml_find_pattern 1 '/' = some ⟨TAG_ELEMENT_CLOSE, ['<', '/'], 2, ['>']⟩ := by
  decide

/-- At cursor 1 only `/`, `?` and `!` extend an opening delimiter. -/
theorem xml_find_pattern_one_none (c : Char) (h1 : c ≠ '/') (h2 : c ≠ '?')
    (h3 : c ≠ '!') : xml_find_pattern 1 c = none := by
  have e1 : ('/' = c) = False := eq_false fun h => h1 h.symm
  have e2 : ('?' = c) = False := eq_false fun h => h2 h.symm
  have e3 : ('!' = c) = False := eq_false fun h => h3 h.symm
  simp [xml_find_pattern, xml_tag_patterns, List.find?, cstr_get, e1, e2, e3]

/-- At cursor 2 only `-` (comment) and `[` (CDATA) extend an opening
delimiter. -/
theorem xml_find_pattern_two_none (c : Char) (h1 : c ≠ '-') (h2 : c ≠ '[') :
    xml_find_pattern 2 c = none := by
  have e1 : ('-' = c) = False := eq_false fun h => h1 h.symm
  have e2 : ('[' = c) = False := eq_false fun h => h2 h.symm
  simp [xml_find_pattern, xml_tag_patterns, List.find?, cstr_get, e1, e2]

/-! ## Single-step unfolding lemmas for the fuelled loops -/

theorem xml_parse_loop_nil (f : Nat) (st : XmlState) :
    xml_parse_loop f st [] = .ok st := by
  cases f <;> rfl

theorem xml_parse_loop_step (f : Nat) (st : XmlState) (d : List Char)
    (hf : 0 < f) (hd : d ≠ []) :
    xml_parse_loop f st d =
      match xml_run_parse_fn st d with
      | .ok (st', d') => xml_parse_loop (f - 1) st' d'
      | .err s => .err s
      | .out => .out := by
  cases f with
  | zero => exact absurd hf (by simp)
  | succ f' =>
    cases d with
    | nil => exact absurd rfl hd
    | cons c cs => simp [xml_parse_loop]

/-- Fields of the state that `xml_key_append` can never change. -/
theorem xml_key_append_fields (st st' : XmlState) (d : List Char)
    (h : xml_key_append st d = some st') :
    st'.cursor = st.cursor ∧ st'.tag = st.tag ∧ st'.parser = st.parser ∧
      st'.current = st.current ∧ st'.root = st.root ∧ st'.empty = st.empty := by
  unfold xml_key_append at h
  cases hc : st.current with
  | none => simp [hc] at h
  | some cur =>
    simp only [hc] at h
    cases htg : st.tag with
    | none => simp [htg] at h
    | some tag =>
      simp only [htg] at h
      repeat' split at h
      all_goals first
        | (injection h with h; subst h;
           refine ⟨?_, ?_, ?_, ?_, ?_, ?_⟩ <;> simp [htg, hc])
        | simp at h

/-- One pass of the tag-body scanner for a fresh (cursor 0) tag whose
closing delimiter is the single character `>`: everything up to the first
`>` becomes key data and the tag is finalized there. -/
theorem xml_parse_tag_body_onestep (f : Nat) (st : XmlState)
    (tag : XmlTagPattern) (t rest : List Char) (hf : 0 < f)
    (htag : st.tag = some tag) (hclose : tag.close = ['>'])
    (hc : st.cursor = 0) (ht : ∀ c ∈ t, c ≠ '>') :
    xml_parse_tag_body_loop f st (t ++ '>' :: rest) =
      match xml_key_append st t with
      | none => .err st
      | some st1 => xml_tag_finalize { st1 with cursor := 1 } rest := by
  obtain ⟨f', rfl⟩ : ∃ f', f = f' + 1 := ⟨f - 1, by omega⟩
  have hcons : ∃ c cs, t ++ '>' :: rest = c :: cs := by
    cases t with
    | nil => exact ⟨'>', rest, rfl⟩
    | cons x xs => exact ⟨x, xs ++ '>' :: rest, rfl⟩
  obtain ⟨c, cs, hsplit⟩ := hcons
  rw [hsplit]
  simp only [xml_parse_tag_body_loop]
  rw [← hsplit]
  simp only [htag, hclose, hc]
  rw [show cstr_get ['>'] 0 = '>' from rfl, strchrIdx_append t rest '>' ht]
  simp only [take_append_len t ('>' :: rest), drop_append_succ t rest '>']
  cases hk : xml_key_append st t with
  | none => simp
  | some st1 =>
    have hfield := xml_key_append_fields st st1 t hk
    simp [hfield.1, hc, cstr_get, nulChar]

theorem strcspn_all_set (b set : List Char) (hb : ∀ c ∈ b, c ∉ set) :
    strcspn b set = b.length := by
  unfold strcspn
  rw [takeWhile_every _ b (fun c hc => by simp [hb c hc])]

theorem drop_append_len (t r : List Char) : (t ++ r).drop t.length = r := by
  induction t with
  | nil => simp
  | cons x xs ih => simpa using ih

theorem xml_parse_loop_le (f : Nat) : ∀ (g : Nat), f ≤ g → ∀ (st : XmlState) (d : List Char),
    xml_parse_loop f st d ≠ .out → xml_parse_loop g st d = xml_parse_loop f st d := by
  induction f with
  | zero =>
    intro g hle st d h
    cases d with
    | nil => rw [xml_parse_loop_nil, xml_parse_loop_nil]
    | cons c cs => exact absurd rfl h
  | succ f ih =>
    intro g hle st d h
    cases d with
    | nil => rw [xml_parse_loop_nil, xml_parse_loop_nil]
    | cons c cs =>
      obtain ⟨g', rfl⟩ : ∃ g', g = g' + 1 := ⟨g - 1, by omega⟩
      simp only [xml_parse_loop] at h ⊢
      cases hr : xml_run_parse_fn st (c :: cs) with
      | ok p =>
        rw [hr] at h
        obtain ⟨st', d'⟩ := p
        exact ih g' (by omega) st' d' h
      | err s => rfl
      | out => rw [hr] at h

/-- C7: for a document `<t>b</t>` parsed in one chunk — `t` any tag name
without whitespace, `/` or `>` (and not starting with a character that
extends another opening delimiter), `b` any nonempty text without `<` —
`xml_content` on the produced leaf element returns exactly the literal
text `b`, byte for byte: no escaping or unescaping happens anywhere, so a
substring such as `&amp;` reappears verbatim (see the witness). -/
theorem xml_content_literal_text (t b : List Char) (ht0 : t ≠ [])
    (ht : ∀ c ∈ t, c ∉ xmlWhitespace ∧ c ≠ '>' ∧ c ≠ '/')
    (hth : ∀ c ∈ t.take 1, c ≠ '?' ∧ c ≠ '!' ∧ c ≠ '-' ∧ c ≠ '[')
    (hb0 : b ≠ []) (hb : ∀ c ∈ b, c ≠ '<') :
    (xml_parse_chunk xmlStateInit
        (some ('<' :: (t ++ '>' :: (b ++ '<' :: '/' :: (t ++ ['>'])))))).1 = 0 ∧
    (arenaGet (xml_parse_chunk xmlStateInit
        (some ('<' :: (t ++ '>' :: (b ++ '<' :: '/' :: (t ++ ['>'])))))).2.arena 1).key =
      some t ∧
    xml_content (xml_parse_chunk xmlStateInit
        (some ('<' :: (t ++ '>' :: (b ++ '<' :: '/' :: (t ++ ['>'])))))).2.arena
      (some 1) = some b := by
  obtain ⟨c0, t', rfl⟩ := List.exists_cons_of_ne_nil ht0
  have hc0 := ht c0 (by simp)
  have hc0h := hth c0 (by simp)
  have hb0' : ¬ b.length < 1 := by have := List.length_pos.mpr hb0; omega
  have hlb : 0 < b.length := List.length_pos.mpr hb0
  -- step 1: content mode stops at the leading '<'
  have s1 : xml_run_parse_fn
      ⟨some 0, some 0, none, 0, 0, false, some .content, [{}]⟩
      ('<' :: ((c0 :: t') ++ '>' :: (b ++ '<' :: '/' :: ((c0 :: t') ++ ['>'])))) =
    .ok (⟨some 0, some 0, none, 0, 0, false, some .tagOpening, [{}]⟩,
      '<' :: ((c0 :: t') ++ '>' :: (b ++ '<' :: '/' :: ((c0 :: t') ++ ['>'])))) := by
    simp [xml_run_parse_fn, xml_parse_content, strcspn, cstr_get]
  -- step 2: tag-opening adopts the element-open pattern at the name's head
  have s2 : xml_run_parse_fn
      ⟨some 0, some 0, none, 0, 0, false, some .tagOpening, [{}]⟩
      ('<' :: ((c0 :: t') ++ '>' :: (b ++ '<' :: '/' :: ((c0 :: t') ++ ['>'])))) =
    .ok (⟨some 0, some 1, some ⟨TAG_ELEMENT_OPEN, ['<'], 1, ['>']⟩, 0, 0, false,
          some .tagBody,
          [⟨none, none, none, some 1, some 1, none, []⟩,
           ⟨none, none, some 0, none, none, none, []⟩]⟩,
      (c0 :: t') ++ '>' :: (b ++ '<' :: '/' :: ((c0 :: t') ++ ['>']))) := by
    simp [xml_run_parse_fn, xml_parse_tag_opening, xml_find_pattern_zero_lt,
      xml_find_pattern_one_none c0 hc0.2.2 hc0h.1 hc0h.2.1,
      xml_element_create, xml_element_add, arenaGet, arenaSet,
      xml_close_element, TAG_ELEMENT_OPEN, TAG_ELEMENT_CLOSE]
  -- step 3: tag-body scans the name up to '>' and finalizes the open tag
  have hka : xml_key_append
      ⟨some 0, some 1, some ⟨TAG_ELEMENT_OPEN, ['<'], 1, ['>']⟩, 0, 0, false,
        some .tagBody,
        [⟨none, none, none, some 1, some 1, none, []⟩,
         ⟨none, none, some 0, none, none, none, []⟩]⟩ (c0 :: t') =
    some ⟨some 0, some 1, some ⟨TAG_ELEMENT_OPEN, ['<'], 1, ['>']⟩, t'.length + 1,
          0, false, some .tagBody,
          [⟨none, none, none, some 1, some 1, none, []⟩,
           ⟨some (c0 :: t'), none, some 0, none, none, none, []⟩]⟩ := by
    simp [xml_key_append, xml_string_append, arenaGet, arenaSet,
      TAG_ELEMENT_CLOSE, TAG_ELEMENT_OPEN]
  have hfin : xml_tag_finalize
      ⟨some 0, some 1, some ⟨TAG_ELEMENT_OPEN, ['<'], 1, ['>']⟩, t'.length + 1,
        1, false, some .tagBody,
        [⟨none, none, none, some 1, some 1, none, []⟩,
         ⟨some (c0 :: t'), none, some 0, none, none, none, []⟩]⟩
      (b ++ '<' :: '/' :: ((c0 :: t') ++ ['>'])) =
    .ok (⟨some 0, some 1, none, 0, 0, false, some .content,
          [⟨none, none, none, some 1, some 1, none, []⟩,
           ⟨some (c0 :: t'), none, some 0, none, none, none, []⟩]⟩,
      b ++ '<' :: '/' :: ((c0 :: t') ++ ['>'])) := by
    simp [xml_tag_finalize, xml_parse_tag_name, xml_check_empty,
      xml_check_empty_key_plain (c0 :: t')
        (fun c hc => ⟨(ht c hc).1, (ht c hc).2.2⟩),
      strcspn_all_set (c0 :: t') xmlWhitespace (fun c hc => (ht c hc).1),
      arenaGet, arenaSet, xml_close_element, xml_close_tag,
      TAG_ELEMENT_OPEN, TAG_ELEMENT_CLOSE]
  have s3 : xml_run_parse_fn
      ⟨some 0, some 1, some ⟨TAG_ELEMENT_OPEN, ['<'], 1, ['>']⟩, 0, 0, false,
        some .tagBody,
        [⟨none, none, none, some 1, some 1, none, []⟩,
         ⟨none, none, some 0, none, none, none, []⟩]⟩
      ((c0 :: t') ++ '>' :: (b ++ '<' :: '/' :: ((c0 :: t') ++ ['>']))) =
    .ok (⟨some 0, some 1, none, 0, 0, false, some .content,
          [⟨none, none, none, some 1, some 1, none, []⟩,
           ⟨some (c0 :: t'), none, some 0, none, none, none, []⟩]⟩,
      b ++ '<' :: '/' :: ((c0 :: t') ++ ['>'])) := by
    rw [show xml_run_parse_fn
        ⟨some 0, some 1, some ⟨TAG_ELEMENT_OPEN, ['<'], 1, ['>']⟩, 0, 0, false,
          some .tagBody,
          [⟨none, none, none, some 1, some 1, none, []⟩,
           ⟨none, none, some 0, none, none, none, []⟩]⟩
        ((c0 :: t') ++ '>' :: (b ++ '<' :: '/' :: ((c0 :: t') ++ ['>']))) =
      xml_parse_tag_body_loop
        (2 * ((c0 :: t') ++ '>' :: (b ++ '<' :: '/' :: ((c0 :: t') ++ ['>']))).length + 2)
        ⟨some 0, some 1, some ⟨TAG_ELEMENT_OPEN, ['<'], 1, ['>']⟩, 0, 0, false,
          some .tagBody,
          [⟨none, none, none, some 1, some 1, none, []⟩,
           ⟨none, none, some 0, none, none, none, []⟩]⟩
        ((c0 :: t') ++ '>' :: (b ++ '<' :: '/' :: ((c0 :: t') ++ ['>']))) from rfl]
    rw [xml_parse_tag_body_onestep _ _ ⟨TAG_ELEMENT_OPEN, ['<'], 1, ['>']⟩ _ _
      (by omega) rfl rfl rfl (fun c hc => (ht c hc).2.1)]
    rw [hka]
    exact hfin
  -- step 4: content mode accumulates the text b as a new child element
  have s4 : xml_run_parse_fn
      ⟨some 0, some 1, none, 0, 0, false, some .content,
        [⟨none, none, none, some 1, some 1, none, []⟩,
         ⟨some (c0 :: t'), none, some 0, none, none, none, []⟩]⟩
      (b ++ '<' :: '/' :: ((c0 :: t') ++ ['>'])) =
    .ok (⟨some 0, some 2, none, b.length, 0, false, some .tagOpening,
          [⟨none, none, none, some 1, some 1, none, []⟩,
           ⟨some (c0 :: t'), none, some 0, some 2, some 2, none, []⟩,
           ⟨none, some b, some 1, none, none, none, []⟩]⟩,
      '<' :: '/' :: ((c0 :: t') ++ ['>'])) := by
    simp [xml_run_parse_fn, xml_parse_content,
      strcspn_stop b ('/' :: c0 :: (t' ++ ['>'])) '<' hb,
      take_append_len b ('<' :: '/' :: c0 :: (t' ++ ['>'])),
      drop_append_len b ('<' :: '/' :: c0 :: (t' ++ ['>'])),
      hlb, hb0', xml_value_append, xml_element_create, xml_element_add,
      arenaGet, arenaSet, xml_string_append, cstr_get]
  -- step 5: tag-opening adopts the element-close pattern
  have s5 : xml_run_parse_fn
      ⟨some 0, some 2, none, b.length, 0, false, some .tagOpening,
        [⟨none, none, none, some 1, some 1, none, []⟩,
         ⟨some (c0 :: t'), none, some 0, some 2, some 2, none, []⟩,
         ⟨none, some b, some 1, none, none, none, []⟩]⟩
      ('<' :: '/' :: ((c0 :: t') ++ ['>'])) =
    .ok (⟨some 0, some 1, some ⟨TAG_ELEMENT_CLOSE, ['<', '/'], 2, ['>']⟩, 0, 0,
          false, some .tagBody,
          [⟨none, none, none, some 1, some 1, none, []⟩,
           ⟨some (c0 :: t'), none, some 0, some 2, some 2, none, []⟩,
           ⟨none, some b, some 1, none, none, none, []⟩]⟩,
      (c0 :: t') ++ ['>']) := by
    simp [xml_run_parse_fn, xml_parse_tag_opening, xml_find_pattern_zero_lt,
      xml_find_pattern_one_slash,
      xml_find_pattern_two_none c0 hc0h.2.2.1 hc0h.2.2.2,
      hlb, arenaGet, arenaSet, xml_close_element,
      TAG_ELEMENT_OPEN, TAG_ELEMENT_CLOSE]
  -- step 6: tag-body of the close tag discards the name and pops to the root
  have hka2 : xml_key_append
      ⟨some 0, some 1, some ⟨TAG_ELEMENT_CLOSE, ['<', '/'], 2, ['>']⟩, 0, 0,
        false, some .tagBody,
        [⟨none, none, none, some 1, some 1, none, []⟩,
         ⟨some (c0 :: t'), none, some 0, some 2, some 2, none, []⟩,
         ⟨none, some b, some 1, none, none, none, []⟩]⟩ (c0 :: t') =
    some ⟨some 0, some 1, some ⟨TAG_ELEMENT_CLOSE, ['<', '/'], 2, ['>']⟩, 0, 0,
          false, some .tagBody,
          [⟨none, none, none, some 1, some 1, none, []⟩,
           ⟨some (c0 :: t'), none, some 0, some 2, some 2, none, []⟩,
           ⟨none, some b, some 1, none, none, none, []⟩]⟩ := by
    simp [xml_key_append, TAG_ELEMENT_CLOSE]
  have s6 : xml_run_parse_fn
      ⟨some 0, some 1, some ⟨TAG_ELEMENT_CLOSE, ['<', '/'], 2, ['>']⟩, 0, 0,
        false, some .tagBody,
        [⟨none, none, none, some 1, some 1, none, []⟩,
         ⟨some (c0 :: t'), none, some 0, some 2, some 2, none, []⟩,
         ⟨none, some b, some 1, none, none, none, []⟩]⟩
      ((c0 :: t') ++ ['>']) =
    .ok (⟨some 0, some 0, none, 0, 0, false, some .content,
          [⟨none, none, none, some 1, some 1, none, []⟩,
           ⟨some (c0 :: t'), none, some 0, some 2, some 2, none, []⟩,
           ⟨none, some b, some 1, none, none, none, []⟩]⟩, []) := by
    rw [show ((c0 :: t') ++ ['>'] : List Char) = (c0 :: t') ++ '>' :: [] from rfl]
    rw [show xml_run_parse_fn
        ⟨some 0, some 1, some ⟨TAG_ELEMENT_CLOSE, ['<', '/'], 2, ['>']⟩, 0, 0,
          false, some .tagBody,
          [⟨none, none, none, some 1, some 1, none, []⟩,
           ⟨some (c0 :: t'), none, some 0, some 2, some 2, none, []⟩,
           ⟨none, some b, some 1, none, none, none, []⟩]⟩
        ((c0 :: t') ++ '>' :: []) =
      xml_parse_tag_body_loop (2 * ((c0 :: t') ++ '>' :: []).length + 2)
        ⟨some 0, some 1, some ⟨TAG_ELEMENT_CLOSE, ['<', '/'], 2, ['>']⟩, 0, 0,
          false, some .tagBody,
          [⟨none, none, none, some 1, some 1, none, []⟩,
           ⟨some (c0 :: t'), none, some 0, some 2, some 2, none, []⟩,
           ⟨none, some b, some 1, none, none, none, []⟩]⟩
        ((c0 :: t') ++ '>' :: []) from rfl]
    rw [xml_parse_tag_body_onestep _ _ ⟨TAG_ELEMENT_CLOSE, ['<', '/'], 2, ['>']⟩ _ _
      (by omega) rfl rfl rfl (fun c hc => (ht c hc).2.1)]
    rw [hka2]
    simp [xml_tag_finalize, arenaGet, arenaSet, xml_close_element, xml_close_tag,
      TAG_ELEMENT_OPEN, TAG_ELEMENT_CLOSE]
  -- chain the six dispatches through the chunk loop at minimal fuel 7
  have hloop : xml_parse_loop 7
      ⟨some 0, some 0, none, 0, 0, false, some .content, [{}]⟩
      ('<' :: ((c0 :: t') ++ '>' :: (b ++ '<' :: '/' :: ((c0 :: t') ++ ['>'])))) =
    .ok ⟨some 0, some 0, none, 0, 0, false, some .content,
          [⟨none, none, none, some 1, some 1, none, []⟩,
           ⟨some (c0 :: t'), none, some 0, some 2, some 2, none, []⟩,
           ⟨none, some b, some 1, none, none, none, []⟩]⟩ := by
    rw [xml_parse_loop_step 7 _ _ (by omega) (by simp), s1]
    dsimp only
    rw [xml_parse_loop_step (7 - 1) _ _ (by omega) (by simp), s2]
    dsimp only
    rw [xml_parse_loop_step (7 - 1 - 1) _ _ (by omega) (by simp), s3]
    dsimp only
    rw [xml_parse_loop_step (7 - 1 - 1 - 1) _ _ (by omega) (by simp [hb0]), s4]
    dsimp only
    rw [xml_parse_loop_step (7 - 1 - 1 - 1 - 1) _ _ (by omega) (by simp), s5]
    dsimp only
    rw [xml_parse_loop_step (7 - 1 - 1 - 1 - 1 - 1) _ _ (by omega) (by simp), s6]
    dsimp only
    rw [xml_parse_loop_nil]
  have hchunk : xml_parse_chunk xmlStateInit
      (some ('<' :: ((c0 :: t') ++ '>' :: (b ++ '<' :: '/' :: ((c0 :: t') ++ ['>']))))) =
    (0, ⟨some 0, some 0, none, 0, 0, false, some .content,
          [⟨none, none, none, some 1, some 1, none, []⟩,
           ⟨some (c0 :: t'), none, some 0, some 2, some 2, none, []⟩,
           ⟨none, some b, some 1, none, none, none, []⟩]⟩) := by
    have e1 : xml_parse_chunk xmlStateInit
        (some ('<' :: ((c0 :: t') ++ '>' :: (b ++ '<' :: '/' :: ((c0 :: t') ++ ['>']))))) =
      match xml_parse_loop
          (3 * ('<' :: ((c0 :: t') ++ '>' :: (b ++ '<' :: '/' :: ((c0 :: t') ++ ['>'])))).length + 3)
          ⟨some 0, some 0, none, 0, 0, false, some .content, [{}]⟩
          ('<' :: ((c0 :: t') ++ '>' :: (b ++ '<' :: '/' :: ((c0 :: t') ++ ['>'])))) with
      | .ok st' => ((0 : Int), st')
      | .err s => ((-1 : Int), s)
      | .out => ((-1 : Int), ⟨some 0, some 0, none, 0, 0, false, some .content, [{}]⟩) := rfl
    rw [e1, xml_parse_loop_le 7 _ (by simp [List.length_append]; omega) _ _
      (by rw [hloop]; simp), hloop]
  refine ⟨by rw [hchunk], by rw [hchunk]; rfl, ?_⟩
  rw [hchunk]
  simp [xml_content, xml_content_len_loop, xml_content_cpy_loop, arenaGet, hb0']


/-- C6: parsing `<t/>` followed by more content gives an element with no
children whose insertion point popped back to its parent when the tag was
finalized: the following text `b` becomes a sibling under the root
(parent index 0), not a child of the element. -/
theorem xml_self_closing_no_children (t b : List Char) (ht0 : t ≠ [])
    (ht : ∀ c ∈ t, c ∉ xmlWhitespace ∧ c ≠ '>' ∧ c ≠ '/')
    (hth : ∀ c ∈ t.take 1, c ≠ '?' ∧ c ≠ '!')
    (hb0 : b ≠ []) (hb : ∀ c ∈ b, c ≠ '<') :
    (xml_parse_chunk xmlStateInit (some ('<' :: (t ++ '/' :: '>' :: b)))).1 = 0 ∧
    (arenaGet (xml_parse_chunk xmlStateInit
        (some ('<' :: (t ++ '/' :: '>' :: b)))).2.arena 1).key = some t ∧
    (arenaGet (xml_parse_chunk xmlStateInit
        (some ('<' :: (t ++ '/' :: '>' :: b)))).2.arena 1).first_child = none ∧
    (arenaGet (xml_parse_chunk xmlStateInit
        (some ('<' :: (t ++ '/' :: '>' :: b)))).2.arena 1).parent = some 0 ∧
    (arenaGet (xml_parse_chunk xmlStateInit
        (some ('<' :: (t ++ '/' :: '>' :: b)))).2.arena 2).value = some b ∧
    (arenaGet (xml_parse_chunk xmlStateInit
        (some ('<' :: (t ++ '/' :: '>' :: b)))).2.arena 2).parent = some 0 := by
  obtain ⟨c0, t', rfl⟩ := List.exists_cons_of_ne_nil ht0
  have hc0 := ht c0 (by simp)
  have hc0h := hth c0 (by simp)
  have hb0' : ¬ b.length < 1 := by have := List.length_pos.mpr hb0; omega
  have hlb : 0 < b.length := List.length_pos.mpr hb0
  have s1 : xml_run_parse_fn
      ⟨some 0, some 0, none, 0, 0, false, some .content, [{}]⟩
      ('<' :: ((c0 :: t') ++ '/' :: '>' :: b)) =
    .ok (⟨some 0, some 0, none, 0, 0, false, some .tagOpening, [{}]⟩,
      '<' :: ((c0 :: t') ++ '/' :: '>' :: b)) := by
    simp [xml_run_parse_fn, xml_parse_content, strcspn, cstr_get]
  have s2 : xml_run_parse_fn
      ⟨some 0, some 0, none, 0, 0, false, some .tagOpening, [{}]⟩
      ('<' :: ((c0 :: t') ++ '/' :: '>' :: b)) =
    .ok (⟨some 0, some 1, some ⟨TAG_ELEMENT_OPEN, ['<'], 1, ['>']⟩, 0, 0, false,
          some .tagBody,
          [⟨none, none, none, some 1, some 1, none, []⟩,
           ⟨none, none, some 0, none, none, none, []⟩]⟩,
      (c0 :: t') ++ '/' :: '>' :: b) := by
    simp [xml_run_parse_fn, xml_parse_tag_opening, xml_find_pattern_zero_lt,
      xml_find_pattern_one_none c0 hc0.2.2 hc0h.1 hc0h.2,
      xml_element_create, xml_element_add, arenaGet, arenaSet,
      xml_close_element, TAG_ELEMENT_OPEN, TAG_ELEMENT_CLOSE]
  have hka : xml_key_append
      ⟨some 0, some 1, some ⟨TAG_ELEMENT_OPEN, ['<'], 1, ['>']⟩, 0, 0, false,
        some .tagBody,
        [⟨none, none, none, some 1, some 1, none, []⟩,
         ⟨none, none, some 0, none, none, none, []⟩]⟩ ((c0 :: t') ++ ['/']) =
    some ⟨some 0, some 1, some ⟨TAG_ELEMENT_OPEN, ['<'], 1, ['>']⟩,
          t'.length + 1 + 1, 0, false, some .tagBody,
          [⟨none, none, none, some 1, some 1, none, []⟩,
           ⟨some ((c0 :: t') ++ ['/']), none, some 0, none, none, none, []⟩]⟩ := by
    simp [xml_key_append, xml_string_append, arenaGet, arenaSet,
      TAG_ELEMENT_CLOSE, TAG_ELEMENT_OPEN]
  have hfin : xml_tag_finalize
      ⟨some 0, some 1, some ⟨TAG_ELEMENT_OPEN, ['<'], 1, ['>']⟩,
        t'.length + 1 + 1, 1, false, some .tagBody,
        [⟨none, none, none, some 1, some 1, none, []⟩,
         ⟨some ((c0 :: t') ++ ['/']), none, some 0, none, none, none, []⟩]⟩ b =
    .ok (⟨some 0, some 0, none, 0, 0, false, some .content,
          [⟨none, none, none, some 1, some 1, none, []⟩,
           ⟨some (c0 :: t'), none, some 0, none, none, none, []⟩]⟩, b) := by
    have hce : xml_check_empty_key (c0 :: (t' ++ ['/'])) = (c0 :: t', true) := by
      have h1 := xml_check_empty_key_slash (c0 :: t')
      simpa using h1
    simp [xml_tag_finalize, xml_parse_tag_name, xml_check_empty, hce,
      strcspn_all_set (c0 :: t') xmlWhitespace (fun c hc => (ht c hc).1),
      arenaGet, arenaSet, xml_close_element, xml_close_tag,
      TAG_ELEMENT_OPEN, TAG_ELEMENT_CLOSE]
  have s3 : xml_run_parse_fn
      ⟨some 0, some 1, some ⟨TAG_ELEMENT_OPEN, ['<'], 1, ['>']⟩, 0, 0, false,
        some .tagBody,
        [⟨none, none, none, some 1, some 1, none, []⟩,
         ⟨none, none, some 0, none, none, none, []⟩]⟩
      ((c0 :: t') ++ '/' :: '>' :: b) =
    .ok (⟨some 0, some 0, none, 0, 0, false, some .content,
          [⟨none, none, none, some 1, some 1, none, []⟩,
           ⟨some (c0 :: t'), none, some 0, none, none, none, []⟩]⟩, b) := by
    rw [show ((c0 :: t') ++ '/' :: '>' :: b : List Char) =
      ((c0 :: t') ++ ['/']) ++ '>' :: b from by simp]
    rw [show xml_run_parse_fn
        ⟨some 0, some 1, some ⟨TAG_ELEMENT_OPEN, ['<'], 1, ['>']⟩, 0, 0, false,
          some .tagBody,
          [⟨none, none, none, some 1, some 1, none, []⟩,
           ⟨none, none, some 0, none, none, none, []⟩]⟩
        (((c0 :: t') ++ ['/']) ++ '>' :: b) =
      xml_parse_tag_body_loop (2 * (((c0 :: t') ++ ['/']) ++ '>' :: b).length + 2)
        ⟨some 0, some 1, some ⟨TAG_ELEMENT_OPEN, ['<'], 1, ['>']⟩, 0, 0, false,
          some .tagBody,
          [⟨none, none, none, some 1, some 1, none, []⟩,
           ⟨none, none, some 0, none, none, none, []⟩]⟩
        (((c0 :: t') ++ ['/']) ++ '>' :: b) from rfl]
    rw [xml_parse_tag_body_onestep _ _ ⟨TAG_ELEMENT_OPEN, ['<'], 1, ['>']⟩ _ _
      (by omega) rfl rfl rfl
      (by
        intro c hc
        simp only [List.mem_append, List.mem_singleton] at hc
        rcases hc with hc | hc
        · exact (ht c hc).2.1
        · subst hc; decide)]
    rw [hka]
    exact hfin
  have s4 : xml_run_parse_fn
      ⟨some 0, some 0, none, 0, 0, false, some .content,
        [⟨none, none, none, some 1, some 1, none, []⟩,
         ⟨some (c0 :: t'), none, some 0, none, none, none, []⟩]⟩ b =
    .ok (⟨some 0, some 2, none, b.length, 0, false, some .content,
          [⟨none, none, none, some 1, some 2, none, []⟩,
           ⟨some (c0 :: t'), none, some 0, none, none, some 2, []⟩,
           ⟨none, some b, some 0, none, none, none, []⟩]⟩, []) := by
    simp [xml_run_parse_fn, xml_parse_content, strcspn_all b '<' hb,
      hlb, hb0', xml_value_append, xml_element_create, xml_element_add,
      arenaGet, arenaSet, xml_string_append, cstr_get, nulChar]
  have hloop : xml_parse_loop 5
      ⟨some 0, some 0, none, 0, 0, false, some .content, [{}]⟩
      ('<' :: ((c0 :: t') ++ '/' :: '>' :: b)) =
    .ok ⟨some 0, some 2, none, b.length, 0, false, some .content,
          [⟨none, none, none, some 1, some 2, none, []⟩,
           ⟨some (c0 :: t'), none, some 0, none, none, some 2, []⟩,
           ⟨none, some b, some 0, none, none, none, []⟩]⟩ := by
    rw [xml_parse_loop_step 5 _ _ (by omega) (by simp), s1]
    dsimp only
    rw [xml_parse_loop_step (5 - 1) _ _ (by omega) (by simp), s2]
    dsimp only
    rw [xml_parse_loop_step (5 - 1 - 1) _ _ (by omega) (by simp), s3]
    dsimp only
    rw [xml_parse_loop_step (5 - 1 - 1 - 1) _ _ (by omega) (by simp [hb0]), s4]
    dsimp only
    rw [xml_parse_loop_nil]
  have hchunk : xml_parse_chunk xmlStateInit
      (some ('<' :: ((c0 :: t') ++ '/' :: '>' :: b))) =
    (0, ⟨some 0, some 2, none, b.length, 0, false, some .content,
          [⟨none, none, none, some 1, some 2, none, []⟩,
           ⟨some (c0 :: t'), none, some 0, none, none, some 2, []⟩,
           ⟨none, some b, some 0, none, none, none, []⟩]⟩) := by
    have e1 : xml_parse_chunk xmlStateInit
        (some ('<' :: ((c0 :: t') ++ '/' :: '>' :: b))) =
      match xml_parse_loop (3 * ('<' :: ((c0 :: t') ++ '/' :: '>' :: b)).length + 3)
          ⟨some 0, some 0, none, 0, 0, false, some .content, [{}]⟩
          ('<' :: ((c0 :: t') ++ '/' :: '>' :: b)) with
      | .ok st' => ((0 : Int), st')
      | .err s => ((-1 : Int), s)
      | .out => ((-1 : Int), ⟨some 0, some 0, none, 0, 0, false, some .content, [{}]⟩) := rfl
    rw [e1, xml_parse_loop_le 5 _ (by simp [List.length_append]; omega) _ _
      (by rw [hloop]; simp), hloop]
  exact ⟨by rw [hchunk], by rw [hchunk]; rfl, by rw [hchunk]; rfl,
    by rw [hchunk]; rfl, by rw [hchunk]; rfl, by rw [hchunk]; rfl⟩

/-- Witness for C7 at `<a>x&amp;y</a>`: the entity is not decoded. -/
theorem xml_content_literal_text_witness :
    (xml_parse_chunk xmlStateInit (some "<a>x&amp;y</a>".toList)).1 = 0 ∧
    (arenaGet (xml_parse_chunk xmlStateInit
        (some "<a>x&amp;y</a>".toList)).2.arena 1).key = some "a".toList ∧
    xml_content (xml_parse_chunk xmlStateInit
        (some "<a>x&amp;y</a>".toList)).2.arena (some 1) =
      some "x&amp;y".toList := by
  have h := xml_content_literal_text "a".toList "x&amp;y".toList (by decide)
    (by decide) (by decide) (by decide) (by decide)
  exact h

/-- Witness for C6 at `<a/>tx`. -/
theorem xml_self_closing_no_children_witness :
    (xml_parse_chunk xmlStateInit (some "<a/>tx".toList)).1 = 0 ∧
    (arenaGet (xml_parse_chunk xmlStateInit
        (some "<a/>tx".toList)).2.arena 1).key = some "a".toList ∧
    (arenaGet (xml_parse_chunk xmlStateInit
        (some "<a/>tx".toList)).2.arena 1).first_child = none ∧
    (arenaGet (xml_parse_chunk xmlStateInit
        (some "<a/>tx".toList)).2.arena 1).parent = some 0 ∧
    (arenaGet (xml_parse_chunk xmlStateInit
        (some "<a/>tx".toList)).2.arena 2).value = some "tx".toList ∧
    (arenaGet (xml_parse_chunk xmlStateInit
        (some "<a/>tx".toList)).2.arena 2).parent = some 0 := by
  have h := xml_self_closing_no_children "a".toList "tx".toList (by decide)
    (by decide) (by decide) (by decide) (by decide)
  exact h

theorem arenaGet_set_self (ar : List XmlElement) (i : Nat) (e : XmlElement)
    (h : i < ar.length) : arenaGet (arenaSet ar i e) i = e := by
  simp [arenaGet, arenaSet, List.getD, List.getElem?_set_self', h]

theorem arenaSet_length (ar : List XmlElement) (i : Nat) (e : XmlElement) :
    (arenaSet ar i e).length = ar.length := by
  simp [arenaSet]

theorem cstr_get_nul_iff (s : List Char) (i : Nat) (hnul : nulChar ∉ s) :
    cstr_get s i = nulChar ↔ s.length ≤ i := by
  unfold cstr_get
  constructor
  · intro h
    by_contra hlt
    push_neg at hlt
    rw [List.getD_eq_getElem s nulChar hlt] at h
    exact hnul (h ▸ List.getElem_mem hlt)
  · intro h
    rw [List.getD_eq_default s nulChar h]

theorem strchrIdx_some (d : List Char) (c : Char) (i : Nat)
    (h : strchrIdx d c = some i) :
    i < d.length ∧ d.take i ++ c :: d.drop (i + 1) = d := by
  induction d generalizing i with
  | nil => simp [strchrIdx] at h
  | cons x xs ih =>
    by_cases hx : x = c
    · simp [strchrIdx, hx] at h
      subst h
      refine ⟨by simp, ?_⟩
      rw [hx]
      simp
    · simp only [strchrIdx, if_neg hx] at h
      cases hi : strchrIdx xs c with
      | none => rw [hi] at h; simp at h
      | some j =>
        rw [hi] at h
        obtain rfl : j + 1 = i := by simpa using h
        obtain ⟨h1, h2⟩ := ih j hi
        constructor
        · simpa using h1
        · simpa using h2

/-- `xml_key_append` on a non-close tag whose key is already started:
plain append. -/
theorem xml_key_append_some_char (st : XmlState) (cur : Nat)
    (tag : XmlTagPattern) (k dta : List Char)
    (hc : st.current = some cur) (ht : st.tag = some tag)
    (hty : tag.type ≠ TAG_ELEMENT_CLOSE)
    (hk : (arenaGet st.arena cur).key = some k) (hl : st.length ≠ 0) :
    xml_key_append st dta =
      some { st with
        arena := arenaSet st.arena cur
          { arenaGet st.arena cur with key := some (k ++ dta) },
        length := st.length + dta.length } := by
  unfold xml_key_append
  simp only [hc, ht]
  rw [if_neg hty]
  have hcond : ¬(st.length = 0 ∧ tag.open_len > 1) := fun hh => hl hh.1
  rw [if_neg hcond]
  unfold xml_string_append
  rw [hk]
  cases dta with
  | nil => simp [hk, hc, ht]
  | cons x xs => simp [hk, hc, ht]

/-- `xml_key_append` on a non-close multi-byte-opener tag with no key yet:
the opener's bytes after its first byte are put in front. -/
theorem xml_key_append_none_char (st : XmlState) (cur : Nat)
    (tag : XmlTagPattern) (dta : List Char)
    (hc : st.current = some cur) (ht : st.tag = some tag)
    (hty : tag.type ≠ TAG_ELEMENT_CLOSE)
    (hk : (arenaGet st.arena cur).key = none) (hl : st.length = 0)
    (hol : 1 < tag.open_len) (holen : 1 < tag.«open».length)
    (hcul : cur < st.arena.length) :
    xml_key_append st dta =
      some { st with
        arena := arenaSet st.arena cur
          { arenaGet st.arena cur with
            key := some ((tag.«open».drop 1).take (tag.open_len - 1) ++ dta) },
        length := ((tag.«open».drop 1).take (tag.open_len - 1)).length + dta.length } := by
  have hpfx : ¬((tag.«open».drop 1).take (tag.open_len - 1)).length < 1 := by
    simp only [List.length_take, List.length_drop]
    omega
  unfold xml_key_append
  simp only [hc, ht]
  rw [if_neg hty]
  have hcond : st.length = 0 ∧ tag.open_len > 1 := ⟨hl, hol⟩
  rw [if_pos hcond]
  unfold xml_string_append
  rw [hk, if_neg hpfx]
  simp only [hl]
  rw [arenaGet_set_self _ _ _ hcul]
  cases dta with
  | nil => simp [arenaSet, List.set_set, hk, hc, ht]
  | cons x xs => simp [arenaSet, List.set_set, hk, hc, ht]

/-- `xml_tag_finalize` for a non-element-open tag at cursor 1 (single-byte
closer fully matched): nothing is re-appended; the element is closed and
the tag state reset. -/
theorem xml_tag_finalize_one (st : XmlState) (cur : Nat) (tag : XmlTagPattern)
    (rest : List Char) (ht : st.tag = some tag)
    (htyO : tag.type ≠ TAG_ELEMENT_OPEN) (hcur : st.cursor = 1)
    (hc : st.current = some cur) :
    xml_tag_finalize st rest =
      .ok ({ st with
              current := (arenaGet st.arena cur).parent,
              tag := none, length := 0, cursor := 0, empty := false,
              parser := some .content }, rest) := by
  unfold xml_tag_finalize
  simp only [ht]
  rw [if_neg (show ¬ st.cursor > 1 by omega)]
  rw [if_neg htyO]
  rw [if_pos (Or.inl htyO)]
  simp [xml_close_element, xml_close_tag, hc]

/-- `xml_tag_finalize` for a non-element-open tag at cursor above 1: the
closer bytes before its last byte are appended to the key, then the
element is closed and the tag state reset. -/
theorem xml_tag_finalize_many (st : XmlState) (cur : Nat) (tag : XmlTagPattern)
    (k rest : List Char) (ht : st.tag = some tag)
    (htyO : tag.type ≠ TAG_ELEMENT_OPEN) (hcur : 1 < st.cursor)
    (hc : st.current = some cur) (hcul : cur < st.arena.length)
    (hk : (arenaGet st.arena cur).key = some k)
    (htk : tag.close.take (st.cursor - 1) ≠ []) :
    xml_tag_finalize st rest =
      .ok ({ st with
              arena := arenaSet st.arena cur
                { arenaGet st.arena cur with
                  key := some (k ++ tag.close.take (st.cursor - 1)) },
              current := (arenaGet st.arena cur).parent,
              tag := none, length := 0, cursor := 0, empty := false,
              parser := some .content }, rest) := by
  have hlen : ¬((tag.close.take (st.cursor - 1)).length < 1) :=
    Nat.not_lt.mpr (List.length_pos.mpr htk)
  unfold xml_tag_finalize
  simp only [ht, hc]
  rw [if_pos hcur]
  unfold xml_string_append
  rw [hk]
  rw [if_neg hlen]
  rw [if_neg htyO]
  rw [if_pos (Or.inl htyO)]
  simp [xml_close_element, xml_close_tag, hc, arenaGet_set_self _ _ _ hcul]

theorem take_succ_cstr (l : List Char) (n : Nat) (hn : n < l.length) :
    l.take (n + 1) = l.take n ++ [cstr_get l n] := by
  rw [List.take_succ]
  congr 1
  simp [cstr_get, List.getD, List.getElem?_eq_getElem hn]

theorem xml_tag_body_raw_key_aux (fuel : Nat) :
    ∀ (st : XmlState) (d : List Char) (st' : XmlState) (d' : List Char)
      (tag : XmlTagPattern) (cur : Nat) (mid : List Char),
      st.tag = some tag →
      tag.type ≠ TAG_ELEMENT_OPEN → tag.type ≠ TAG_ELEMENT_CLOSE →
      1 < tag.open_len → 1 < tag.«open».length →
      tag.close ≠ [] → nulChar ∉ tag.close →
      st.current = some cur → cur < st.arena.length →
      nulChar ∉ d →
      ((arenaGet st.arena cur).key =
          some ((tag.«open».drop 1).take (tag.open_len - 1) ++ mid) ∧
        st.length ≠ 0 ∨
        (arenaGet st.arena cur).key = none ∧ st.length = 0 ∧ mid = [] ∧
          st.cursor = 0) →
      st.cursor ≤ tag.close.length →
      xml_parse_tag_body_loop fuel st d = .ok (st', d') →
      st'.tag = none →
      ∃ cons g, d = cons ++ d' ∧
        mid ++ tag.close.take st.cursor ++ cons = g ++ tag.close ∧
        (arenaGet st'.arena cur).key =
          some ((tag.«open».drop 1).take (tag.open_len - 1) ++ g ++
            tag.close.dropLast) := by
  induction fuel with
  | zero =>
    intro st d st' d' tag cur mid _ _ _ _ _ _ _ _ _ _ _ _ hrun _
    simp [xml_parse_tag_body_loop] at hrun
  | succ fuel ih =>
    intro st d st' d' tag cur mid htag htyO htyC hol holen hcne hcnul hc hcul
      hdnul hkey hcle hrun hdone
    have hget : ∀ e, arenaGet (arenaSet st.arena cur e) cur = e :=
      fun e => arenaGet_set_self st.arena cur e hcul
    have hsetlen : ∀ e, (arenaSet st.arena cur e).length = st.arena.length :=
      fun e => arenaSet_length st.arena cur e
    obtain ⟨ch0, ct, hch⟩ : ∃ a l, tag.close = a :: l := by
      cases hhc : tag.close with
      | nil => exact absurd hhc hcne
      | cons a l => exact ⟨a, l, rfl⟩
    have hchlen : tag.close.length = ct.length + 1 := by rw [hch]; rfl
    cases d with
    | nil =>
      simp only [xml_parse_tag_body_loop] at hrun
      injection hrun with hrun
      injection hrun with h1 h2
      rw [← h1, htag] at hdone
      cases hdone
    | cons c cs =>
      have hcnul' : c ≠ nulChar := fun hcc => hdnul (by simp [hcc])
      have hcsnul : nulChar ∉ cs := fun hm => hdnul (by simp [hm])
      simp only [xml_parse_tag_body_loop, htag] at hrun
      by_cases hcz : st.cursor = 0
      · -- cursor at zero: scan for the closer's first byte
        rw [if_pos hcz] at hrun
        have hneedle : cstr_get tag.close 0 = ch0 := by rw [hch]; rfl
        rw [hneedle] at hrun
        cases hsc : strchrIdx (c :: cs) ch0 with
        | none =>
          rw [hsc] at hrun
          dsimp only at hrun
          cases hka : xml_key_append st (c :: cs) with
          | none => rw [hka] at hrun; cases hrun
          | some stx =>
            rw [hka] at hrun
            injection hrun with hrun
            injection hrun with h1 h2
            obtain ⟨-, htagx, -, -, -, -⟩ := xml_key_append_fields st stx _ hka
            rw [← h1, htagx, htag] at hdone
            cases hdone
        | some i =>
          rw [hsc] at hrun
          dsimp only at hrun
          obtain ⟨hilt, hsplit⟩ := strchrIdx_some _ _ _ hsc
          have hstep : ∃ L, xml_key_append st ((c :: cs).take i) =
              some { st with
                arena := arenaSet st.arena cur
                  { arenaGet st.arena cur with
                    key := some ((tag.«open».drop 1).take (tag.open_len - 1) ++
                      (mid ++ (c :: cs).take i)) },
                length := L } ∧ L ≠ 0 := by
            rcases hkey with ⟨hk, hl⟩ | ⟨hk, hl, hmid, -⟩
            · refine ⟨st.length + ((c :: cs).take i).length, ?_, ?_⟩
              · rw [xml_key_append_some_char st cur tag _ _ hc htag htyC hk hl]
                simp [List.append_assoc]
              · intro hz; omega
            · subst hmid
              refine ⟨((tag.«open».drop 1).take (tag.open_len - 1)).length +
                  ((c :: cs).take i).length, ?_, ?_⟩
              · rw [xml_key_append_none_char st cur tag _ hc htag htyC hk hl
                  hol holen hcul]
                simp
              · have hpl : ((tag.«open».drop 1).take (tag.open_len - 1)).length ≠ 0 := by
                  simp only [List.length_take, List.length_drop]; omega
                omega
          obtain ⟨L, hka, hL⟩ := hstep
          rw [hka] at hrun
          dsimp only at hrun
          rw [hcz] at hrun
          by_cases hfull : tag.close.length ≤ 1
          · have hct : ct = [] := by
              rw [hch] at hfull; simpa using hfull
            have hnul1 : cstr_get tag.close (0 + 1) = nulChar :=
              (cstr_get_nul_iff _ _ hcnul).mpr (by omega)
            rw [if_pos hnul1] at hrun
            rw [xml_tag_finalize_one _ cur tag _ (by simpa using htag) htyO
              (by simp) (by simpa using hc)] at hrun
            injection hrun with hrun
            injection hrun with h1 h2
            subst h1; subst h2
            refine ⟨(c :: cs).take i ++ [ch0], mid ++ (c :: cs).take i, ?_, ?_, ?_⟩
            · rw [List.append_assoc, List.singleton_append]
              exact hsplit.symm
            · simp [hcz, hch, hct]
            · simp [hget, hch, hct, List.append_assoc]
          · have hnul1 : cstr_get tag.close (0 + 1) ≠ nulChar := by
              intro hq
              rw [cstr_get_nul_iff _ _ hcnul] at hq
              omega
            rw [if_neg hnul1] at hrun
            obtain ⟨cons2, g2, hd2, hg2, hk2⟩ :=
              ih _ _ st' d' tag cur (mid ++ (c :: cs).take i)
                (by simpa using htag) htyO htyC hol holen hcne hcnul
                (by simpa using hc) (by simpa [hsetlen] using hcul)
                (fun hm => hdnul (by rw [← hsplit]; simp; exact Or.inr (Or.inr hm)))
                (Or.inl ⟨by simp [hget], by simpa using hL⟩)
                (by simp; omega) hrun hdone
            refine ⟨(c :: cs).take i ++ ch0 :: cons2, g2, ?_, ?_, hk2⟩
            · conv_lhs => rw [← hsplit]
              rw [hd2]
              simp
            · rw [hcz]
              simp only [List.take_zero, List.nil_append]
              simpa [hch] using hg2
      · -- cursor advanced: match next closer byte
        rw [if_neg hcz] at hrun
        rcases hkey with ⟨hk, hl⟩ | ⟨-, -, -, hcz0⟩
        swap
        · exact absurd hcz0 hcz
        have hget2 : ∀ e e2,
            arenaGet (arenaSet (arenaSet st.arena cur e) cur e2) cur = e2 :=
          fun e e2 => arenaGet_set_self _ _ _ (by simpa [hsetlen] using hcul)
        by_cases hmatch : cstr_get tag.close st.cursor = c
        · -- next closer byte matches
          rw [if_pos hmatch] at hrun
          have hclt : st.cursor < tag.close.length := by
            by_contra hh
            push_neg at hh
            have hnn : cstr_get tag.close st.cursor = nulChar :=
              (cstr_get_nul_iff _ _ hcnul).mpr hh
            exact hcnul' (by rw [← hmatch, hnn])
          have hgec : tag.close[st.cursor] = c := by
            have hm := hmatch
            simp [cstr_get, List.getD, List.getElem?_eq_getElem hclt] at hm
            exact hm
          by_cases hfull : tag.close.length ≤ st.cursor + 1
          · -- closer complete: finalize
            have hnul1 : cstr_get tag.close (st.cursor + 1) = nulChar :=
              (cstr_get_nul_iff _ _ hcnul).mpr (by omega)
            rw [if_pos hnul1] at hrun
            rw [xml_tag_finalize_many _ cur tag
              ((tag.«open».drop 1).take (tag.open_len - 1) ++ mid) cs
              (by simpa using htag) htyO (by simp; omega) (by simpa using hc)
              (by simpa using hcul) (by simpa using hk)
              (by simp [List.take_eq_nil_iff, hcne]; omega)] at hrun
            injection hrun with hrun
            injection hrun with h1 h2
            subst h1; subst h2
            have hcloseq : tag.close = tag.close.take st.cursor ++ [c] := by
              conv_lhs => rw [← List.take_append_drop st.cursor tag.close]
              congr 1
              rw [List.drop_eq_getElem_cons hclt, hgec,
                List.drop_eq_nil_of_le (by omega)]
            refine ⟨[c], mid, ?_, ?_, ?_⟩
            · rfl
            · conv_rhs => rw [hcloseq]
              simp
            · conv_rhs => rw [hcloseq]
              simp [hget, List.dropLast_concat, List.append_assoc,
                Nat.add_sub_cancel]
          · -- closer not yet complete: keep scanning
            have hnul1 : cstr_get tag.close (st.cursor + 1) ≠ nulChar := by
              intro hq
              rw [cstr_get_nul_iff _ _ hcnul] at hq
              omega
            rw [if_neg hnul1] at hrun
            obtain ⟨cons2, g2, hd2, hg2, hk2⟩ :=
              ih _ _ st' d' tag cur mid (by simpa using htag) htyO htyC hol
                holen hcne hcnul (by simpa using hc) (by simpa using hcul)
                hcsnul (Or.inl ⟨by simpa using hk, by simpa using hl⟩)
                (by simp; omega) hrun hdone
            refine ⟨c :: cons2, g2, ?_, ?_, hk2⟩
            · rw [hd2]; rfl
            · have hts := take_succ_cstr tag.close st.cursor hclt
              rw [hmatch] at hts
              rw [hts] at hg2
              simpa using hg2
        · -- mismatch: flush the partially matched closer into the key
          rw [if_neg hmatch] at hrun
          rw [xml_key_append_some_char st cur tag _ _ hc htag htyC hk hl] at hrun
          dsimp only at hrun
          by_cases hre : cstr_get tag.close 0 = c
          · -- current byte matches the closer's first byte
            rw [if_pos hre] at hrun
            simp only [List.take_zero] at hrun
            rw [xml_key_append_some_char _ cur tag
              (((tag.«open».drop 1).take (tag.open_len - 1) ++ mid) ++
                tag.close.take st.cursor) []
              (by simpa using hc) (by simpa using htag) htyC
              (by simp [hget]) (by simp; omega)] at hrun
            dsimp only at hrun
            have hc0 : ch0 = c := by simpa [hch, cstr_get] using hre
            by_cases hfull : tag.close.length ≤ 1
            · -- single-byte closer: finalize
              have hct : ct = [] := by
                rw [hch] at hfull; simpa using hfull
              have hc1 : st.cursor = 1 := by
                rw [hch, hct] at hcle
                simp at hcle
                omega
              have hnul1 : cstr_get tag.close 1 = nulChar :=
                (cstr_get_nul_iff _ _ hcnul).mpr (by omega)
              rw [if_pos hnul1] at hrun
              rw [xml_tag_finalize_one _ cur tag _ (by simpa using htag) htyO
                (by simp) (by simpa using hc)] at hrun
              injection hrun with hrun
              injection hrun with h1 h2
              subst h1; subst h2
              refine ⟨[c], mid ++ [c], ?_, ?_, ?_⟩
              · rfl
              · simp [hch, hct, hc1, hc0]
              · simp [hget2, hch, hct, hc1, hc0, List.append_assoc]
            · -- multi-byte closer: keep scanning after the first byte
              have hnul1 : cstr_get tag.close 1 ≠ nulChar := by
                intro hq
                rw [cstr_get_nul_iff _ _ hcnul] at hq
                omega
              rw [if_neg hnul1] at hrun
              obtain ⟨cons2, g2, hd2, hg2, hk2⟩ :=
                ih _ _ st' d' tag cur (mid ++ tag.close.take st.cursor)
                  (by simpa using htag) htyO htyC hol holen hcne hcnul
                  (by simpa using hc) (by simpa [arenaSet_length] using hcul)
                  hcsnul
                  (Or.inl ⟨by simp [hget2, List.append_assoc], by simp; omega⟩)
                  (by simp; omega) hrun hdone
              refine ⟨c :: cons2, g2, ?_, ?_, hk2⟩
              · rw [hd2]; rfl
              · simp [hch, ← hc0] at hg2 ⊢
                exact hg2
          · -- restart the scan with cursor 0 on the same data
            rw [if_neg hre] at hrun
            obtain ⟨cons2, g2, hd2, hg2, hk2⟩ :=
              ih _ _ st' d' tag cur (mid ++ tag.close.take st.cursor)
                (by simpa using htag) htyO htyC hol holen hcne hcnul
                (by simpa using hc) (by simpa [hsetlen] using hcul) hdnul
                (Or.inl ⟨by simp [hget, List.append_assoc], by simp; omega⟩)
                (by simp) hrun hdone
            refine ⟨cons2, g2, hd2, ?_, hk2⟩
            simpa using hg2
/-- C2 (amended): for the special tag types — the ones whose finalisation
does not run the tag-name/attribute split, i.e. everything except element
open/close tags — a full closing-delimiter match leaves in `key` exactly
the opener's bytes after its first byte, then the raw scanned text, then
the closer's bytes before its last byte. -/
theorem xml_tag_body_key_between_delimiters (fuel : Nat) (st : XmlState)
    (d : List Char) (st' : XmlState) (d' : List Char) (tag : XmlTagPattern)
    (cur : Nat)
    (htag : st.tag = some tag) (htyO : tag.type ≠ TAG_ELEMENT_OPEN)
    (htyC : tag.type ≠ TAG_ELEMENT_CLOSE) (hol : 1 < tag.open_len)
    (holen : tag.open_len = tag.«open».length)
    (hcne : tag.close ≠ []) (hcnul : nulChar ∉ tag.close)
    (hc : st.current = some cur) (hcul : cur < st.arena.length)
    (hdnul : nulChar ∉ d)
    (hk0 : (arenaGet st.arena cur).key = none) (hl0 : st.length = 0)
    (hcz : st.cursor = 0)
    (hrun : xml_parse_tag_body_loop fuel st d = .ok (st', d'))
    (hdone : st'.tag = none) :
    ∃ raw, d = raw ++ tag.close ++ d' ∧
      (arenaGet st'.arena cur).key =
        some (tag.«open».drop 1 ++ raw ++ tag.close.dropLast) := by
  obtain ⟨cons, g, hd, hg, hk⟩ :=
    xml_tag_body_raw_key_aux fuel st d st' d' tag cur [] htag htyO htyC hol
      (by omega) hcne hcnul hc hcul hdnul (Or.inr ⟨hk0, hl0, rfl, hcz⟩)
      (by simp [hcz]) hrun hdone
  simp only [hcz, List.take_zero, List.nil_append, List.append_nil] at hg
  have hpfx : (tag.«open».drop 1).take (tag.open_len - 1) = tag.«open».drop 1 := by
    apply List.take_of_length_le
    simp only [List.length_drop]
    omega
  refine ⟨g, ?_, ?_⟩
  · rw [hd, hg]
  · rw [hk, hpfx]

theorem xml_tag_body_key_between_delimiters_witness :
    ∃ raw, ['x', '-', '-', '>', 't'] = raw ++ ['-', '-', '>'] ++ ['t'] ∧
      (arenaGet st1c2.arena 0).key =
        some (['!', '-', '-'] ++ raw ++ ['-', '-']) :=
  xml_tag_body_key_between_delimiters 10 st0c2 ['x', '-', '-', '>', 't'] st1c2
    ['t'] cmtTag 0 rfl (by decide) (by decide) (by decide) (by decide)
    (by decide) (by decide) rfl (by decide) (by decide) rfl rfl rfl rfl rfl

/-- C2 (counterexample): for an element open tag the key does not hold the
full text between the outer delimiters: parsing `<a x="1"></a>` gives the
element the key `a`, while the text between `<` and `>` of its opening tag
is `a x="1"`; everything after the first whitespace is split off into
attributes by the tag-name pass. -/
theorem xml_open_tag_key_drops_attribute_text :
    ((xml_parse (some ("<a x=\"1\"></a>".toList))).map
        (fun st => (arenaGet st.arena 1).key)) = some (some ['a']) ∧
      (['a'] : List Char) ≠ "a x=\"1\"".toList := by
  decide
